import Mathlib

/-!
Verification development for the Ticketooz ticket-PDF core: the pricing
reconciliation engine (`fetchPricingData`), the invoice number formatter
(`generateInvoiceNumber`), the responsive layout resolver
(`getResponsiveConfig` / `getLayoutConfig`), the paginator space check
(`checkPageSpace`), and the occurrence date/time resolution used by the
document composer.

JS numbers are modelled as rationals (ℚ); database fetches are modelled by
their results (an `Option` input holds the fetched record, `none` meaning the
fetch failed or found nothing).  The single unguarded division of the source
(unit price in the flat-total fallback) is embedded as guarded division: the
reconciliation returns `none` when the divisor `booking.quantity` is zero.
A string-typed seat quantity with no leading digits would produce `NaN` in
JS; the embedding likewise routes it to the `none` (error) outcome.
-/

namespace Ticketooz

/-- JS `x || d` for an optional numeric field: `undefined` and `0` are falsy. -/
def numOr (x : Option ℚ) (d : ℚ) : ℚ :=
  match x with
  | some q => if q = 0 then d else q
  | none => d

/-- JS `x || d` for an optional string field: `undefined` and `""` are falsy. -/
def strOr (x : Option String) (d : String) : String :=
  match x with
  | some s => if s = "" then d else s
  | none => d

/-- JS truthiness of an optional string: `undefined` and `""` are falsy. -/
def strTruthy (x : Option String) : Bool :=
  match x with
  | some s => s != ""
  | none => false

/-- JS truthiness of an optional boolean: only `true` is truthy. -/
def boolTruthy (x : Option Bool) : Bool :=
  match x with
  | some b => b
  | none => false

/-- JS `a || b` keeping the optional string shape (used for
`backendPricing.eventTime || ticketData.event.event_time`). -/
def strOrOpt (a b : Option String) : Option String :=
  if strTruthy a then a else b

/-- Numeric value of a list of decimal digit characters. -/
def digitsVal (l : List Char) : ℕ :=
  l.foldl (fun a c => 10 * a + (c.toNat - 48)) 0

/-- Leading decimal digits of a character list; `none` when there is none
(the `NaN` case of `parseInt`). -/
def leadDigits (l : List Char) : Option ℕ :=
  let ds := l.takeWhile Char.isDigit
  if ds = [] then none else some (digitsVal ds)

/-- Model of JS `parseInt(s, 10)`: skip whitespace, optional sign, read
leading decimal digits; `none` models the `NaN` result. -/
def jsParseInt (s : String) : Option ℤ :=
  match s.data.dropWhile Char.isWhitespace with
  | '-' :: rest => (leadDigits rest).map (fun n => -(n : ℤ))
  | '+' :: rest => (leadDigits rest).map (fun n => (n : ℤ))
  | t => (leadDigits t).map (fun n => (n : ℤ))

/-- A duck-typed quantity field of a seat record: the source probes it with
`typeof seat.quantity === 'string'`, so it is either a number or a string. -/
inductive QtyField
  | num (q : ℚ)
  | str (s : String)
deriving Repr, DecidableEq

/-- JS truthiness of a quantity field: `0` and `""` are falsy. -/
def QtyField.truthy : QtyField → Bool
  | .num q => q != 0
  | .str s => s != ""

/-- Coerce a quantity field to a number as the source does:
`typeof q === 'string' ? parseInt(q, 10) : q`. -/
def QtyField.toNum : QtyField → Option ℚ
  | .num q => some q
  | .str s => (jsParseInt s).map (fun z => (z : ℚ))

/-- One element of the booking's `seat_numbers` JSON array.  The source
treats it as `any` and probes these fields with fallback chains. -/
structure SeatRec where
  seat_number : Option String := none
  seat_category : Option String := none
  category : Option String := none
  price : Option ℚ := none
  base_price : Option ℚ := none
  quantity : Option QtyField := none
  booked_quantity : Option QtyField := none
deriving Repr, DecidableEq

/-- `seat.seat_category || seat.category || 'General'` (source line 195). -/
def resolveSeatCategory (s : SeatRec) : String :=
  strOr s.seat_category (strOr s.category "General")

/-- `seat.price || seat.base_price || 0` (source line 196). -/
def resolveSeatPrice (s : SeatRec) : ℚ :=
  numOr s.price (numOr s.base_price 0)

/-- Second link of the quantity fallback chain: `seat.booked_quantity`,
defaulting to 1 (source lines 197-202). -/
def resolveSeatQtyBooked (s : SeatRec) : Option ℚ :=
  match s.booked_quantity with
  | some f => if f.truthy then f.toNum else some 1
  | none => some 1

/-- Per-seat quantity resolution (source lines 197-202): the explicit
`quantity` field, else the legacy `booked_quantity` field, else 1, with
string values coerced through `parseInt`.  `none` models a `NaN` result. -/
def resolveSeatQty (s : SeatRec) : Option ℚ :=
  match s.quantity with
  | some f => if f.truthy then f.toNum else resolveSeatQtyBooked s
  | none => resolveSeatQtyBooked s

/-- One entry of the derived category breakdown. -/
structure BreakdownEntry where
  category : String
  quantity : ℚ
  unitPrice : ℚ
  totalPrice : ℚ
deriving Repr, DecidableEq

/-- Value stored in the `categoryCountMap` of the seat-array path. -/
structure CatData where
  quantity : ℚ
  totalPrice : ℚ
  unitPrice : ℚ
deriving Repr, DecidableEq

/-- Mutable state of the seat-array loop (source lines 191-218): the
insertion-ordered category map, the running seat-quantity total and the
running base price. -/
structure SeatState where
  catMap : List (String × CatData)
  totalQty : ℚ
  basePrice : ℚ
deriving Repr, DecidableEq

/-- In-place update of one category of the map (keys are unique, as in a JS
`Map`): `current.quantity += quantity; current.totalPrice += price * quantity`. -/
def updateCat (cat : String) (q price : ℚ) :
    List (String × CatData) → List (String × CatData)
  | [] => []
  | e :: rest =>
    if e.1 = cat then
      (e.1, ⟨e.2.quantity + q, e.2.totalPrice + price * q, e.2.unitPrice⟩) :: rest
    else e :: updateCat cat q price rest

/-- One iteration of the `booking.seat_numbers.forEach` loop for a seat
paired with its already-resolved quantity. -/
def seatStep (st : SeatState) (sq : SeatRec × ℚ) : SeatState :=
  let cat := resolveSeatCategory sq.1
  let price := resolveSeatPrice sq.1
  let m1 :=
    if (st.catMap.lookup cat).isSome then st.catMap
    else st.catMap ++ [(cat, ⟨0, 0, price⟩)]
  { catMap := updateCat cat sq.2 price m1
    totalQty := st.totalQty + sq.2
    basePrice := st.basePrice + price * sq.2 }

/-- Resolve every seat quantity of the array; `none` when any coercion
yields `NaN`. -/
def resolveQtys : List SeatRec → Option (List ℚ)
  | [] => some []
  | s :: rest =>
    match resolveSeatQty s, resolveQtys rest with
    | some q, some qs => some (q :: qs)
    | _, _ => none

/-- Run the seat-array loop of the source over the whole array. -/
def runSeats (seats : List SeatRec) : Option SeatState :=
  (resolveQtys seats).map (fun qs => (seats.zip qs).foldl seatStep ⟨[], 0, 0⟩)

/-- The `event_occurrences` record joined onto the booking. -/
structure OccRec where
  occurrence_date : String
  occurrence_time : String
deriving Repr, DecidableEq

/-- The `occurrence_ticket_categories` record fetched by id. -/
structure OccCat where
  category_name : String
  base_price : ℚ
deriving Repr, DecidableEq

/-- The booking row (with its joins) as used by `fetchPricingData`. -/
structure BookingRec where
  quantity : ℚ
  total_price : Option ℚ := none
  convenience_fee : Option ℚ := none
  event_occurrence_id : Option String := none
  occurrence_ticket_category_id : Option String := none
  seat_numbers : Option (List SeatRec) := none
  event_occurrences : Option OccRec := none
  event_event_time : Option String := none
  customer_name : Option String := none
  customer_email : Option String := none
  customer_phone : Option String := none
deriving Repr, DecidableEq

/-- The `BackendPricing` result of `fetchPricingData`. -/
structure BackendPricing where
  basePrice : ℚ
  convenienceFee : ℚ
  gstAmount : ℚ
  totalPrice : ℚ
  actualTotalQuantity : ℚ
  categoryBreakdown : List BreakdownEntry
  customer_name : Option String
  customer_email : Option String
  customer_phone : Option String
  occurrenceData : Option OccRec
  eventTime : Option String
deriving Repr, DecidableEq

/-- The occurrence-category path (source lines 158-185): when the booking
references both an occurrence and an occurrence ticket category and the
category fetch succeeded, emit the single entry and set the accumulators.
Returns (categoryBreakdown, basePrice, actualTotalQuantity). -/
def occBranch (b : BookingRec) (occCat : Option OccCat) :
    List BreakdownEntry × ℚ × ℚ :=
  if strTruthy b.event_occurrence_id && strTruthy b.occurrence_ticket_category_id then
    match occCat with
    | some oc =>
      ([⟨oc.category_name, b.quantity, oc.base_price, oc.base_price * b.quantity⟩],
       oc.base_price * b.quantity, b.quantity)
    | none => ([], 0, 0)
  else ([], 0, 0)

/-- The breakdown entry emitted for one category of the seat map
(source lines 220-227). -/
def toEntry (e : String × CatData) : BreakdownEntry :=
  ⟨e.1, e.2.quantity, e.2.unitPrice, e.2.totalPrice⟩

/-- State after the occurrence-category path and the seat-array path
(source lines 158-228), before the flat-total fallback.  Returns
(categoryBreakdown, basePrice, actualTotalQuantity); `none` when a seat
quantity coercion produced `NaN`. -/
def preFallback (b : BookingRec) (occCat : Option OccCat) :
    Option (List BreakdownEntry × ℚ × ℚ) :=
  let r1 := occBranch b occCat
  if r1.1.length = 0 then
    match b.seat_numbers with
    | some seats =>
      (runSeats seats).map (fun st =>
        (st.catMap.map toEntry, r1.2.1 + st.basePrice, st.totalQty))
    | none => some r1
  else some r1

/-- Convenience-fee decomposition (source lines 245-247): the stored fee is
split into a pre-tax fee and an 18% GST component only when positive. -/
def convFeeDecomp (f : ℚ) : ℚ × ℚ :=
  if f > 0 then (f / 1.18, f - f / 1.18) else (0, 0)

/-- The flat-total fallback (source lines 230-243): when the accumulated
base price is zero, overwrite it with `totalPrice − convenienceFee` and the
quantity with `booking.quantity`, and emit the single General Admission
entry when no earlier path produced entries.  The division
`basePrice / booking.quantity` of the source is unguarded; the embedding
returns `none` when the divisor is zero. -/
def flatFallback (b : BookingRec) (r2 : List BreakdownEntry × ℚ × ℚ) :
    Option (List BreakdownEntry × ℚ × ℚ) :=
  if r2.2.1 = 0 then
    let bp := numOr b.total_price 0 - numOr b.convenience_fee 0
    if r2.1.length = 0 then
      if b.quantity = 0 then none
      else some ([⟨"General Admission", b.quantity, bp / b.quantity, bp⟩], bp, b.quantity)
    else some (r2.1, bp, b.quantity)
  else some r2

/-- The pricing reconciliation of `fetchPricingData` (source lines 91-278).
The first argument is the fetched booking row (`none`: fetch failed, the
function returns `null`); the second is the fetched occurrence ticket
category when the booking references one. -/
def fetchPricingData (bookingFetch : Option BookingRec) (occCat : Option OccCat) :
    Option BackendPricing :=
  match bookingFetch with
  | none => none
  | some b =>
    match (preFallback b occCat).bind (flatFallback b) with
    | none => none
    | some r3 =>
      let fee := convFeeDecomp (numOr b.convenience_fee 0)
      some
        { basePrice := r3.2.1
          convenienceFee := fee.1
          gstAmount := fee.2
          totalPrice := numOr b.total_price 0
          actualTotalQuantity := r3.2.2
          categoryBreakdown := r3.1
          customer_name := b.customer_name
          customer_email := b.customer_email
          customer_phone := b.customer_phone
          occurrenceData :=
            if strTruthy b.event_occurrence_id then b.event_occurrences else none
          eventTime := b.event_event_time }

/-- Sum of the `quantity` fields of a breakdown. -/
def bdQtySum (l : List BreakdownEntry) : ℚ := (l.map (fun e => e.quantity)).sum

/-- Sum of the `totalPrice` (line total) fields of a breakdown. -/
def bdTotalSum (l : List BreakdownEntry) : ℚ := (l.map (fun e => e.totalPrice)).sum

/-- Sum of the per-category quantities of a seat map. -/
def mapQtySum (m : List (String × CatData)) : ℚ := (m.map (fun e => e.2.quantity)).sum

/-- Sum of the per-category subtotals of a seat map. -/
def mapTotalSum (m : List (String × CatData)) : ℚ := (m.map (fun e => e.2.totalPrice)).sum

/-- Quantity stored for a category in the map, 0 when absent. -/
def lkQty (m : List (String × CatData)) (c : String) : ℚ :=
  match m.lookup c with
  | some d => d.quantity
  | none => 0

/-- Subtotal stored for a category in the map, 0 when absent. -/
def lkTot (m : List (String × CatData)) (c : String) : ℚ :=
  match m.lookup c with
  | some d => d.totalPrice
  | none => 0

/-- Accumulated quantity of the seats of category `c` in a seat/quantity list. -/
def catQtySum (L : List (SeatRec × ℚ)) (c : String) : ℚ :=
  (L.map (fun sq => if resolveSeatCategory sq.1 = c then sq.2 else 0)).sum

/-- Accumulated subtotal of the seats of category `c` in a seat/quantity list. -/
def catTotSum (L : List (SeatRec × ℚ)) (c : String) : ℚ :=
  (L.map (fun sq =>
    if resolveSeatCategory sq.1 = c then resolveSeatPrice sq.1 * sq.2 else 0)).sum

lemma lookup_isSome_iff (m : List (String × CatData)) (c : String) :
    (m.lookup c).isSome = true ↔ c ∈ m.map Prod.fst := by
  induction m with
  | nil => simp [List.lookup]
  | cons e rest ih =>
    simp only [List.lookup, List.map_cons, List.mem_cons]
    rcases h : c == e.1 with _ | _
    · simp only [beq_eq_false_iff_ne, ne_eq] at h
      simp [ih, h]
    · simp only [beq_iff_eq] at h
      simp [h]

lemma keys_updateCat (cat : String) (q p : ℚ) (m : List (String × CatData)) :
    (updateCat cat q p m).map Prod.fst = m.map Prod.fst := by
  induction m with
  | nil => simp [updateCat]
  | cons e rest ih =>
    by_cases h : e.1 = cat
    · simp [updateCat, h]
    · simp [updateCat, h, ih]

lemma lookup_updateCat_self (cat : String) (q p : ℚ) (m : List (String × CatData))
    (d : CatData) (h : m.lookup cat = some d) :
    (updateCat cat q p m).lookup cat =
      some ⟨d.quantity + q, d.totalPrice + p * q, d.unitPrice⟩ := by
  induction m with
  | nil => simp [List.lookup] at h
  | cons e rest ih =>
    by_cases he : e.1 = cat
    · subst he
      simp only [List.lookup, beq_self_eq_true, Option.some.injEq] at h
      subst h
      simp [updateCat, List.lookup]
    · have hbe : (cat == e.1) = false := by
        simp only [beq_eq_false_iff_ne, ne_eq]
        exact fun hc => he hc.symm
      simp only [List.lookup, hbe] at h
      simp only [updateCat, he, if_false, List.lookup, hbe]
      exact ih h

lemma lookup_updateCat_ne (cat : String) (q p : ℚ) (m : List (String × CatData))
    (c : String) (h : c ≠ cat) :
    (updateCat cat q p m).lookup c = m.lookup c := by
  induction m with
  | nil => simp [updateCat]
  | cons e rest ih =>
    by_cases he : e.1 = cat
    · have hbe : (c == e.1) = false := by
        simp only [beq_eq_false_iff_ne, ne_eq]
        exact fun hc => h (hc.trans he)
      have hcc : (c == cat) = false := by
        simp only [beq_eq_false_iff_ne, ne_eq]
        exact h
      simp [updateCat, he, List.lookup, hbe, hcc]
    · simp only [updateCat, he, if_false]
      rcases hbe : c == e.1 with _ | _
      · simp [List.lookup, hbe, ih]
      · simp [List.lookup, hbe]

lemma mapQtySum_updateCat (cat : String) (q p : ℚ) (m : List (String × CatData))
    (h : cat ∈ m.map Prod.fst) :
    mapQtySum (updateCat cat q p m) = mapQtySum m + q := by
  induction m with
  | nil => simp at h
  | cons e rest ih =>
    simp only [List.map_cons, List.mem_cons] at h
    by_cases he : e.1 = cat
    · simp only [updateCat, he, eq_self_iff_true, if_true, mapQtySum, List.map_cons,
        List.sum_cons]
      ring
    · have hrest : cat ∈ rest.map Prod.fst := by
        rcases h with h1 | h1
        · exact absurd h1.symm he
        · exact h1
      simp only [updateCat, he, if_false, mapQtySum, List.map_cons, List.sum_cons]
      have hih := ih hrest
      simp only [mapQtySum] at hih
      rw [hih]
      ring

lemma mapTotalSum_updateCat (cat : String) (q p : ℚ) (m : List (String × CatData))
    (h : cat ∈ m.map Prod.fst) :
    mapTotalSum (updateCat cat q p m) = mapTotalSum m + p * q := by
  induction m with
  | nil => simp at h
  | cons e rest ih =>
    simp only [List.map_cons, List.mem_cons] at h
    by_cases he : e.1 = cat
    · simp only [updateCat, he, eq_self_iff_true, if_true, mapTotalSum, List.map_cons,
        List.sum_cons]
      ring
    · have hrest : cat ∈ rest.map Prod.fst := by
        rcases h with h1 | h1
        · exact absurd h1.symm he
        · exact h1
      simp only [updateCat, he, if_false, mapTotalSum, List.map_cons, List.sum_cons]
      have hih := ih hrest
      simp only [mapTotalSum] at hih
      rw [hih]
      ring

lemma lookup_append_single (m : List (String × CatData)) (cat : String) (d : CatData)
    (c : String) :
    (m ++ [(cat, d)]).lookup c =
      match m.lookup c with
      | some x => some x
      | none => if c = cat then some d else none := by
  induction m with
  | nil =>
    simp only [List.nil_append, List.lookup]
    rcases h : c == cat with _ | _
    · simp only [beq_eq_false_iff_ne, ne_eq] at h
      simp [List.lookup, h]
    · simp only [beq_iff_eq] at h
      simp [List.lookup, h]
  | cons e rest ih =>
    rcases hbe : c == e.1 with _ | _
    · simp only [List.cons_append, List.lookup, hbe]
      exact ih
    · simp [List.cons_append, List.lookup, hbe]

lemma seatStep_totalQty (st : SeatState) (sq : SeatRec × ℚ) :
    (seatStep st sq).totalQty = st.totalQty + sq.2 := rfl

lemma seatStep_basePrice (st : SeatState) (sq : SeatRec × ℚ) :
    (seatStep st sq).basePrice = st.basePrice + resolveSeatPrice sq.1 * sq.2 := rfl

lemma seatStep_catMap (st : SeatState) (sq : SeatRec × ℚ) :
    (seatStep st sq).catMap =
      updateCat (resolveSeatCategory sq.1) sq.2 (resolveSeatPrice sq.1)
        (if (st.catMap.lookup (resolveSeatCategory sq.1)).isSome then st.catMap
         else st.catMap ++ [(resolveSeatCategory sq.1, ⟨0, 0, resolveSeatPrice sq.1⟩)]) :=
  rfl

lemma seatStep_keys (st : SeatState) (sq : SeatRec × ℚ) :
    (seatStep st sq).catMap.map Prod.fst =
      if resolveSeatCategory sq.1 ∈ st.catMap.map Prod.fst then st.catMap.map Prod.fst
      else st.catMap.map Prod.fst ++ [resolveSeatCategory sq.1] := by
  rw [seatStep_catMap]
  by_cases h : (st.catMap.lookup (resolveSeatCategory sq.1)).isSome = true
  · have hm := (lookup_isSome_iff _ _).mp h
    simp [h, keys_updateCat, hm]
  · have hm : resolveSeatCategory sq.1 ∉ st.catMap.map Prod.fst :=
      fun hmem => h ((lookup_isSome_iff _ _).mpr hmem)
    have h0 : (st.catMap.lookup (resolveSeatCategory sq.1)).isSome = false := Bool.eq_false_iff.mpr h
    simp [h0, keys_updateCat, hm]

lemma seatStep_nodup (st : SeatState) (sq : SeatRec × ℚ)
    (h : (st.catMap.map Prod.fst).Nodup) :
    ((seatStep st sq).catMap.map Prod.fst).Nodup := by
  rw [seatStep_keys]
  by_cases hm : resolveSeatCategory sq.1 ∈ st.catMap.map Prod.fst
  · simpa [hm] using h
  · simp only [hm, if_false]
    refine List.Nodup.append h (List.nodup_singleton _) ?_
    intro a ha hb
    simp only [List.mem_singleton] at hb
    subst hb
    exact hm ha

lemma seatStep_mapQtySum (st : SeatState) (sq : SeatRec × ℚ) :
    mapQtySum (seatStep st sq).catMap = mapQtySum st.catMap + sq.2 := by
  rw [seatStep_catMap]
  by_cases h : (st.catMap.lookup (resolveSeatCategory sq.1)).isSome = true
  · have hm := (lookup_isSome_iff _ _).mp h
    simp only [h, if_true]
    exact mapQtySum_updateCat _ _ _ _ hm
  · have h0 : (st.catMap.lookup (resolveSeatCategory sq.1)).isSome = false := Bool.eq_false_iff.mpr h
    simp only [h0, Bool.false_eq_true, if_false]
    rw [mapQtySum_updateCat _ _ _ _ (by simp)]
    simp [mapQtySum]

lemma seatStep_mapTotalSum (st : SeatState) (sq : SeatRec × ℚ) :
    mapTotalSum (seatStep st sq).catMap =
      mapTotalSum st.catMap + resolveSeatPrice sq.1 * sq.2 := by
  rw [seatStep_catMap]
  by_cases h : (st.catMap.lookup (resolveSeatCategory sq.1)).isSome = true
  · have hm := (lookup_isSome_iff _ _).mp h
    simp only [h, if_true]
    exact mapTotalSum_updateCat _ _ _ _ hm
  · have h0 : (st.catMap.lookup (resolveSeatCategory sq.1)).isSome = false := Bool.eq_false_iff.mpr h
    simp only [h0, Bool.false_eq_true, if_false]
    rw [mapTotalSum_updateCat _ _ _ _ (by simp)]
    simp [mapTotalSum]

lemma seatStep_lkQty (st : SeatState) (sq : SeatRec × ℚ) (c : String) :
    lkQty (seatStep st sq).catMap c =
      lkQty st.catMap c + (if resolveSeatCategory sq.1 = c then sq.2 else 0) := by
  rw [seatStep_catMap]
  by_cases hc : resolveSeatCategory sq.1 = c
  · subst hc
    rcases hl : st.catMap.lookup (resolveSeatCategory sq.1) with _ | d
    · simp only [hl, Option.isSome_none, Bool.false_eq_true, if_false]
      have hnew : (st.catMap ++ [(resolveSeatCategory sq.1,
          (⟨0, 0, resolveSeatPrice sq.1⟩ : CatData))]).lookup (resolveSeatCategory sq.1) =
          some ⟨0, 0, resolveSeatPrice sq.1⟩ := by
        rw [lookup_append_single]
        simp [hl]
      have hupd := lookup_updateCat_self (resolveSeatCategory sq.1) sq.2
        (resolveSeatPrice sq.1) _ _ hnew
      simp [lkQty, hupd, hl]
    · simp only [hl, Option.isSome_some, if_true]
      have hupd := lookup_updateCat_self (resolveSeatCategory sq.1) sq.2
        (resolveSeatPrice sq.1) st.catMap d hl
      simp [lkQty, hupd, hl]
  · have hne : c ≠ resolveSeatCategory sq.1 := fun h => hc h.symm
    by_cases h : (st.catMap.lookup (resolveSeatCategory sq.1)).isSome = true
    · simp only [h, if_true]
      simp [lkQty, lookup_updateCat_ne _ _ _ _ _ hne, hc]
    · have h0 : (st.catMap.lookup (resolveSeatCategory sq.1)).isSome = false := Bool.eq_false_iff.mpr h
      simp only [h0, Bool.false_eq_true, if_false]
      have happ : (st.catMap ++ [(resolveSeatCategory sq.1,
          (⟨0, 0, resolveSeatPrice sq.1⟩ : CatData))]).lookup c = st.catMap.lookup c := by
        rw [lookup_append_single]
        rcases hl : st.catMap.lookup c with _ | d
        · simp [hne]
        · simp
      simp [lkQty, lookup_updateCat_ne _ _ _ _ _ hne, happ, hc]

lemma seatStep_lkTot (st : SeatState) (sq : SeatRec × ℚ) (c : String) :
    lkTot (seatStep st sq).catMap c =
      lkTot st.catMap c +
        (if resolveSeatCategory sq.1 = c then resolveSeatPrice sq.1 * sq.2 else 0) := by
  rw [seatStep_catMap]
  by_cases hc : resolveSeatCategory sq.1 = c
  · subst hc
    rcases hl : st.catMap.lookup (resolveSeatCategory sq.1) with _ | d
    · simp only [hl, Option.isSome_none, Bool.false_eq_true, if_false]
      have hnew : (st.catMap ++ [(resolveSeatCategory sq.1,
          (⟨0, 0, resolveSeatPrice sq.1⟩ : CatData))]).lookup (resolveSeatCategory sq.1) =
          some ⟨0, 0, resolveSeatPrice sq.1⟩ := by
        rw [lookup_append_single]
        simp [hl]
      have hupd := lookup_updateCat_self (resolveSeatCategory sq.1) sq.2
        (resolveSeatPrice sq.1) _ _ hnew
      simp [lkTot, hupd, hl]
    · simp only [hl, Option.isSome_some, if_true]
      have hupd := lookup_updateCat_self (resolveSeatCategory sq.1) sq.2
        (resolveSeatPrice sq.1) st.catMap d hl
      simp [lkTot, hupd, hl]
  · have hne : c ≠ resolveSeatCategory sq.1 := fun h => hc h.symm
    by_cases h : (st.catMap.lookup (resolveSeatCategory sq.1)).isSome = true
    · simp only [h, if_true]
      simp [lkTot, lookup_updateCat_ne _ _ _ _ _ hne, hc]
    · have h0 : (st.catMap.lookup (resolveSeatCategory sq.1)).isSome = false := Bool.eq_false_iff.mpr h
      simp only [h0, Bool.false_eq_true, if_false]
      have happ : (st.catMap ++ [(resolveSeatCategory sq.1,
          (⟨0, 0, resolveSeatPrice sq.1⟩ : CatData))]).lookup c = st.catMap.lookup c := by
        rw [lookup_append_single]
        rcases hl : st.catMap.lookup c with _ | d
        · simp [hne]
        · simp
      simp [lkTot, lookup_updateCat_ne _ _ _ _ _ hne, happ, hc]

lemma foldl_totalQty (L : List (SeatRec × ℚ)) (st : SeatState) :
    (L.foldl seatStep st).totalQty = st.totalQty + (L.map (fun sq => sq.2)).sum := by
  induction L generalizing st with
  | nil => simp
  | cons sq L ih =>
    simp only [List.foldl_cons, List.map_cons, List.sum_cons, ih, seatStep_totalQty]
    ring

lemma foldl_basePrice (L : List (SeatRec × ℚ)) (st : SeatState) :
    (L.foldl seatStep st).basePrice =
      st.basePrice + (L.map (fun sq => resolveSeatPrice sq.1 * sq.2)).sum := by
  induction L generalizing st with
  | nil => simp
  | cons sq L ih =>
    simp only [List.foldl_cons, List.map_cons, List.sum_cons, ih, seatStep_basePrice]
    ring

lemma foldl_mapQtySum (L : List (SeatRec × ℚ)) (st : SeatState) :
    mapQtySum (L.foldl seatStep st).catMap =
      mapQtySum st.catMap + (L.map (fun sq => sq.2)).sum := by
  induction L generalizing st with
  | nil => simp
  | cons sq L ih =>
    simp only [List.foldl_cons, List.map_cons, List.sum_cons, ih, seatStep_mapQtySum]
    ring

lemma foldl_mapTotalSum (L : List (SeatRec × ℚ)) (st : SeatState) :
    mapTotalSum (L.foldl seatStep st).catMap =
      mapTotalSum st.catMap + (L.map (fun sq => resolveSeatPrice sq.1 * sq.2)).sum := by
  induction L generalizing st with
  | nil => simp
  | cons sq L ih =>
    simp only [List.foldl_cons, List.map_cons, List.sum_cons, ih, seatStep_mapTotalSum]
    ring

lemma foldl_nodup (L : List (SeatRec × ℚ)) (st : SeatState)
    (h : (st.catMap.map Prod.fst).Nodup) :
    ((L.foldl seatStep st).catMap.map Prod.fst).Nodup := by
  induction L generalizing st with
  | nil => simpa using h
  | cons sq L ih =>
    simp only [List.foldl_cons]
    exact ih _ (seatStep_nodup _ _ h)

lemma foldl_keys_mem (L : List (SeatRec × ℚ)) (st : SeatState) (c : String) :
    c ∈ (L.foldl seatStep st).catMap.map Prod.fst ↔
      c ∈ st.catMap.map Prod.fst ∨ c ∈ L.map (fun sq => resolveSeatCategory sq.1) := by
  induction L generalizing st with
  | nil => simp
  | cons sq L ih =>
    simp only [List.foldl_cons, List.map_cons, List.mem_cons, ih, seatStep_keys]
    by_cases hm : resolveSeatCategory sq.1 ∈ st.catMap.map Prod.fst
    · simp only [hm, if_true]
      constructor
      · intro h
        rcases h with h | h
        · exact Or.inl h
        · exact Or.inr (Or.inr h)
      · intro h
        rcases h with h | h | h
        · exact Or.inl h
        · exact Or.inl (h ▸ hm)
        · exact Or.inr h
    · simp only [hm, if_false, List.mem_append, List.mem_singleton]
      constructor
      · intro h
        rcases h with (h | h) | h
        · exact Or.inl h
        · exact Or.inr (Or.inl h)
        · exact Or.inr (Or.inr h)
      · intro h
        rcases h with h | h | h
        · exact Or.inl (Or.inl h)
        · exact Or.inl (Or.inr h)
        · exact Or.inr h

lemma foldl_lkQty (L : List (SeatRec × ℚ)) (st : SeatState) (c : String) :
    lkQty (L.foldl seatStep st).catMap c = lkQty st.catMap c + catQtySum L c := by
  induction L generalizing st with
  | nil => simp [catQtySum]
  | cons sq L ih =>
    simp only [List.foldl_cons, ih, seatStep_lkQty, catQtySum, List.map_cons, List.sum_cons]
    ring

lemma foldl_lkTot (L : List (SeatRec × ℚ)) (st : SeatState) (c : String) :
    lkTot (L.foldl seatStep st).catMap c = lkTot st.catMap c + catTotSum L c := by
  induction L generalizing st with
  | nil => simp [catTotSum]
  | cons sq L ih =>
    simp only [List.foldl_cons, ih, seatStep_lkTot, catTotSum, List.map_cons, List.sum_cons]
    ring

lemma lookup_of_mem_nodup (m : List (String × CatData)) (c : String) (d : CatData)
    (hmem : (c, d) ∈ m) (hnd : (m.map Prod.fst).Nodup) : m.lookup c = some d := by
  induction m with
  | nil => simp at hmem
  | cons e rest ih =>
    simp only [List.map_cons, List.nodup_cons] at hnd
    rcases List.mem_cons.mp hmem with h1 | h1
    · subst h1
      simp [List.lookup]
    · have hne : c ≠ e.1 := by
        intro hcc
        subst hcc
        exact hnd.1 (List.mem_map.mpr ⟨_, h1, rfl⟩)
      have hbe : (c == e.1) = false := by
        simp only [beq_eq_false_iff_ne, ne_eq]
        exact hne
      simp only [List.lookup, hbe]
      exact ih h1 hnd.2

lemma resolveQtys_length (l : List SeatRec) (qs : List ℚ)
    (h : resolveQtys l = some qs) : qs.length = l.length := by
  induction l generalizing qs with
  | nil =>
    simp only [resolveQtys, Option.some.injEq] at h
    subst h
    rfl
  | cons s rest ih =>
    simp only [resolveQtys] at h
    rcases hq : resolveSeatQty s with _ | q <;> rw [hq] at h
    · simp at h
    · rcases hr : resolveQtys rest with _ | qs0 <;> rw [hr] at h
      · simp at h
      · simp only [Option.some.injEq] at h
        subst h
        simp [ih qs0 hr]

lemma zip_map_snd (l : List SeatRec) (qs : List ℚ) (h : qs.length = l.length) :
    (l.zip qs).map (fun sq => sq.2) = qs := by
  induction l generalizing qs with
  | nil =>
    cases qs
    · simp
    · simp at h
  | cons s rest ih =>
    cases qs with
    | nil => simp at h
    | cons q qs0 =>
      simp only [List.length_cons, Nat.succ.injEq] at h
      simp [ih qs0 h]

lemma zip_map_fst_fn {α : Type} (f : SeatRec → α) (l : List SeatRec) (qs : List ℚ)
    (h : qs.length = l.length) :
    (l.zip qs).map (fun sq => f sq.1) = l.map f := by
  induction l generalizing qs with
  | nil => simp
  | cons s rest ih =>
    cases qs with
    | nil => simp at h
    | cons q qs0 =>
      simp only [List.length_cons, Nat.succ.injEq] at h
      simp [ih qs0 h]

lemma occBranch_empty (b : BookingRec) (oc : Option OccCat)
    (h : (occBranch b oc).1 = []) : occBranch b oc = ([], 0, 0) := by
  unfold occBranch at h ⊢
  by_cases hc : (strTruthy b.event_occurrence_id &&
      strTruthy b.occurrence_ticket_category_id) = true
  · rw [if_pos hc] at h ⊢
    rcases oc with _ | c
    · rfl
    · simp at h
  · rw [if_neg hc]

lemma occBranch_sums (b : BookingRec) (oc : Option OccCat) :
    bdTotalSum (occBranch b oc).1 = (occBranch b oc).2.1 ∧
    bdQtySum (occBranch b oc).1 = (occBranch b oc).2.2 := by
  unfold occBranch
  by_cases hc : (strTruthy b.event_occurrence_id &&
      strTruthy b.occurrence_ticket_category_id) = true
  · rw [if_pos hc]
    rcases oc with _ | c
    · simp [bdTotalSum, bdQtySum]
    · simp [bdTotalSum, bdQtySum]
  · rw [if_neg hc]
    simp [bdTotalSum, bdQtySum]

lemma bdTotalSum_toEntry (m : List (String × CatData)) :
    bdTotalSum (m.map toEntry) = mapTotalSum m := by
  simp only [bdTotalSum, mapTotalSum, List.map_map]
  rfl

lemma bdQtySum_toEntry (m : List (String × CatData)) :
    bdQtySum (m.map toEntry) = mapQtySum m := by
  simp only [bdQtySum, mapQtySum, List.map_map]
  rfl

lemma runSeats_state (seats : List SeatRec) (st : SeatState) (h : runSeats seats = some st) :
    mapTotalSum st.catMap = st.basePrice ∧ mapQtySum st.catMap = st.totalQty ∧
    (st.catMap.map Prod.fst).Nodup := by
  unfold runSeats at h
  rcases hq : resolveQtys seats with _ | qs <;> rw [hq] at h
  · simp at h
  · simp only [Option.map_some', Option.some.injEq] at h
    subst h
    refine ⟨?_, ?_, ?_⟩
    · rw [foldl_mapTotalSum, foldl_basePrice]
      simp [mapTotalSum]
    · rw [foldl_mapQtySum, foldl_totalQty]
      simp [mapQtySum]
    · exact foldl_nodup _ _ (by simp)

lemma preFallback_occ (b : BookingRec) (oc : Option OccCat)
    (h1 : (occBranch b oc).1 ≠ []) :
    preFallback b oc = some (occBranch b oc) := by
  simp only [preFallback]
  rw [if_neg (by simpa [List.length_eq_zero] using h1)]

lemma preFallback_seats (b : BookingRec) (oc : Option OccCat) (seats : List SeatRec)
    (h1 : (occBranch b oc).1 = []) (hs : b.seat_numbers = some seats) :
    preFallback b oc =
      (runSeats seats).map (fun st =>
        (st.catMap.map toEntry, (occBranch b oc).2.1 + st.basePrice, st.totalQty)) := by
  simp only [preFallback, hs]
  rw [if_pos (by simp [h1])]

lemma preFallback_none_seats (b : BookingRec) (oc : Option OccCat)
    (h1 : (occBranch b oc).1 = []) (hs : b.seat_numbers = none) :
    preFallback b oc = some (occBranch b oc) := by
  simp only [preFallback, hs]
  rw [if_pos (by simp [h1])]

lemma preFallback_sums (b : BookingRec) (oc : Option OccCat)
    (bd : List BreakdownEntry) (bp q : ℚ)
    (h : preFallback b oc = some (bd, bp, q)) :
    bdTotalSum bd = bp ∧ bdQtySum bd = q := by
  by_cases h1 : (occBranch b oc).1 = []
  · rcases hs : b.seat_numbers with _ | seats
    · rw [preFallback_none_seats b oc h1 hs] at h
      have h2 := Option.some.inj h
      have hsum := occBranch_sums b oc
      rw [h2] at hsum
      simpa using hsum
    · rw [preFallback_seats b oc seats h1 hs] at h
      rcases hr : runSeats seats with _ | st <;> rw [hr] at h
      · simp at h
      · simp only [Option.map_some', Option.some.injEq, Prod.mk.injEq] at h
        obtain ⟨hbd, hbp, hq2⟩ := h
        subst hbd hbp hq2
        obtain ⟨ht, hq3, _⟩ := runSeats_state seats st hr
        rw [occBranch_empty b oc h1]
        rw [bdTotalSum_toEntry, bdQtySum_toEntry, ht, hq3]
        simp
  · rw [preFallback_occ b oc h1] at h
    have h2 := Option.some.inj h
    have hsum := occBranch_sums b oc
    rw [h2] at hsum
    simpa using hsum

lemma flatFallback_nonzero (b : BookingRec) (r2 : List BreakdownEntry × ℚ × ℚ)
    (h : r2.2.1 ≠ 0) : flatFallback b r2 = some r2 := by
  simp [flatFallback, h]

lemma flatFallback_zero_entries (b : BookingRec) (r2 : List BreakdownEntry × ℚ × ℚ)
    (h0 : r2.2.1 = 0) (h1 : r2.1 ≠ []) :
    flatFallback b r2 =
      some (r2.1, numOr b.total_price 0 - numOr b.convenience_fee 0, b.quantity) := by
  have hlen : ¬(r2.1.length = 0) := fun hl => h1 (List.length_eq_zero.mp hl)
  simp only [flatFallback]
  rw [if_pos h0, if_neg hlen]

lemma flatFallback_empty (b : BookingRec) (r2 : List BreakdownEntry × ℚ × ℚ)
    (h0 : r2.2.1 = 0) (h1 : r2.1 = []) :
    flatFallback b r2 =
      if b.quantity = 0 then none
      else some ([⟨"General Admission", b.quantity,
        (numOr b.total_price 0 - numOr b.convenience_fee 0) / b.quantity,
        numOr b.total_price 0 - numOr b.convenience_fee 0⟩],
        numOr b.total_price 0 - numOr b.convenience_fee 0, b.quantity) := by
  simp [flatFallback, h0, h1]

/-- The record `fetchPricingData` builds from the final accumulator state. -/
def mkPricing (b : BookingRec) (r3 : List BreakdownEntry × ℚ × ℚ) : BackendPricing :=
  { basePrice := r3.2.1
    convenienceFee := (convFeeDecomp (numOr b.convenience_fee 0)).1
    gstAmount := (convFeeDecomp (numOr b.convenience_fee 0)).2
    totalPrice := numOr b.total_price 0
    actualTotalQuantity := r3.2.2
    categoryBreakdown := r3.1
    customer_name := b.customer_name
    customer_email := b.customer_email
    customer_phone := b.customer_phone
    occurrenceData :=
      if strTruthy b.event_occurrence_id then b.event_occurrences else none
    eventTime := b.event_event_time }

lemma fetch_some_iff (b : BookingRec) (oc : Option OccCat) (p : BackendPricing) :
    fetchPricingData (some b) oc = some p ↔
      ∃ r3, (preFallback b oc).bind (flatFallback b) = some r3 ∧ p = mkPricing b r3 := by
  simp only [fetchPricingData]
  rcases hr : (preFallback b oc).bind (flatFallback b) with _ | r3
  · simp
  · simp only [Option.some.injEq]
    constructor
    · intro h
      exact ⟨r3, rfl, h.symm⟩
    · rintro ⟨r3x, hr3, hp⟩
      subst hr3
      exact hp.symm

/-- The decimal digit character for `n < 10`. -/
def digitChar (n : ℕ) : Char := Char.ofNat (48 + n)

/-- Decimal representation of a natural number, most significant digit
first (the result of JS `Number.prototype.toString` on a whole number),
written with explicit fuel so that it is structurally recursive. -/
def decimalReprAux : ℕ → ℕ → List Char
  | 0, _ => []
  | fuel + 1, n =>
    if n < 10 then [digitChar n]
    else decimalReprAux fuel (n / 10) ++ [digitChar (n % 10)]

/-- Decimal representation of a natural number. -/
def decimalRepr (n : ℕ) : List Char := decimalReprAux (n + 1) n

/-- JS `String.prototype.padStart(2, '0')`. -/
def padStart2 (l : List Char) : List Char :=
  if l.length ≥ 2 then l else List.replicate (2 - l.length) '0' ++ l

/-- JS `String.prototype.toUpperCase`, restricted to its ASCII behavior
(`Char.toUpper` maps only `a`-`z`). -/
def jsUpper (l : List Char) : List Char := l.map Char.toUpper

/-- JS `String.prototype.slice(-n)`: the last `n` characters, or the whole
string when it is shorter. -/
def sliceLast (n : ℕ) (l : List Char) : List Char := l.drop (l.length - n)

/-- The local-time calendar components JS `Date` exposes for the parsed
booking date: `getFullYear`, `getMonth` (0-based) and `getDate`.  Parsing
of the ISO string is a runtime service of JS `Date`; it is modelled by its
resulting components. -/
structure JDate where
  year : ℕ
  month : ℕ
  day : ℕ
deriving Repr, DecidableEq

/-- `generateInvoiceNumber` (src/src/utils/invoiceUtils.ts lines 2-13):
`INV-` + last two digits of the year + zero-padded month + zero-padded day
+ `-` + the last six characters of the booking id, uppercased. -/
def generateInvoiceNumber (bookingId : String) (d : JDate) : String :=
  let year := sliceLast 2 (decimalRepr d.year)
  let month := padStart2 (decimalRepr (d.month + 1))
  let day := padStart2 (decimalRepr d.day)
  let bookingIdSuffix := jsUpper (sliceLast 6 bookingId.data)
  String.mk ("INV-".data ++ year ++ month ++ day ++ ['-'] ++ bookingIdSuffix)

/-- `formatInvoiceNumber` (src/unnamed/part_001): identity on non-empty
codes, the literal `N/A` on an empty (falsy) one. -/
def formatInvoiceNumber (invoiceNumber : String) : String :=
  if invoiceNumber = "" then "N/A" else invoiceNumber

/-- A character allowed in the suffix of the spec pattern `[A-Z0-9]`. -/
def isUpperOrDigit (c : Char) : Bool := c.isUpper || c.isDigit

/-- Decider for the spec pattern `INV-\x5cd{6}-[A-Z0-9]{1,6}$` over the whole
string: characters 0-3 are `INV-`, characters 4-9 are six digits, character
10 is `-`, and the remainder is one to six uppercase letters or digits. -/
def matchesInvoicePattern (s : String) : Bool :=
  let l := s.data
  let datePart := (l.drop 4).take 6
  let dash := (l.drop 10).take 1
  let suffix := l.drop 11
  decide (l.take 4 = "INV-".data) && decide (datePart.length = 6) &&
    datePart.all Char.isDigit && decide (dash = ['-']) &&
    decide (1 ≤ suffix.length) && decide (suffix.length ≤ 6) &&
    suffix.all isUpperOrDigit

/-- `checkPageSpace` (source lines 308-313): true when the content does NOT
fit, i.e. when `currentY + requiredSpace` exceeds `pageHeight − 20`. -/
def checkPageSpace (pageHeight currentY requiredSpace : ℚ) : Bool :=
  let bottomMargin : ℚ := 20
  decide ((currentY + requiredSpace) > (pageHeight - bottomMargin))

/-- Modelled from the spec: `hasSpace(y, requiredHeight)` is "true iff
`y + requiredHeight` stays within `pageHeight − bottomMargin`" (spec 4.4),
with the bottom margin 20 of the code. -/
def hasSpaceSpec (pageHeight currentY requiredSpace : ℚ) : Bool :=
  decide ((currentY + requiredSpace) ≤ (pageHeight - 20))

/-- The font-size table of the responsive configuration. -/
structure FontSizes where
  title : ℚ
  subtitle : ℚ
  heading : ℚ
  body : ℚ
  small : ℚ
deriving Repr, DecidableEq

/-- The responsive PDF configuration. -/
structure ResponsiveConfig where
  margin : ℚ
  headerHeight : ℚ
  fontSize : FontSizes
  lineHeight : ℚ
  sectionSpacing : ℚ
  qrSize : ℚ
  columnSplit : ℚ
  contentPadding : ℚ
  maxTextWidth : ℚ
deriving Repr, DecidableEq

/-- `getResponsiveConfig` (source lines 281-306). -/
def getResponsiveConfig (pageWidth pageHeight : ℚ) : ResponsiveConfig :=
  let isSmallFormat := pageWidth < 150 ∨ pageHeight < 200
  let isMediumFormat := pageWidth ≥ 150 ∧ pageWidth < 200
  let baseScale := min (pageWidth / 210) (pageHeight / 297)
  { margin := max 8 (pageWidth * 0.035)
    headerHeight := if isSmallFormat then 18 else if isMediumFormat then 25 else 32
    fontSize :=
      { title := max 12 (min 20 (pageWidth * 0.065 * baseScale))
        subtitle := max 7 (min 12 (pageWidth * 0.028 * baseScale))
        heading := max 9 (min 14 (pageWidth * 0.032 * baseScale))
        body := max 7 (min 11 (pageWidth * 0.024 * baseScale))
        small := max 6 (min 9 (pageWidth * 0.020 * baseScale)) }
    lineHeight := if isSmallFormat then 3.5 else if isMediumFormat then 5 else 6.5
    sectionSpacing := if isSmallFormat then 6 else if isMediumFormat then 9 else 14
    qrSize := max 25 (min 60 (pageWidth * 0.14))
    columnSplit := if isSmallFormat then 0.95 else if isMediumFormat then 0.65 else 0.58
    contentPadding := max 3 (pageWidth * 0.015)
    maxTextWidth := if isSmallFormat then pageWidth * 0.85 else pageWidth * 0.45 }

/-- The size tier of a page (precedence as in the source booleans:
small, then medium, then large). -/
def sizeTier (pageWidth pageHeight : ℚ) : ℕ :=
  if pageWidth < 150 ∨ pageHeight < 200 then 0
  else if pageWidth ≥ 150 ∧ pageWidth < 200 then 1
  else 2

/-- The column geometry derived by `getLayoutConfig` (source lines 854-876). -/
structure LayoutConfig where
  leftColumnX : ℚ
  rightColumnX : ℚ
  leftColumnWidth : ℚ
  rightColumnWidth : ℚ
  useStacked : Bool
deriving Repr, DecidableEq

/-- `getLayoutConfig` (source lines 854-876). -/
def getLayoutConfig (config : ResponsiveConfig) (pageWidth : ℚ) : LayoutConfig :=
  let isSmallLayout := pageWidth < 150
  if isSmallLayout then
    { leftColumnX := config.margin + config.contentPadding
      rightColumnX := config.margin + config.contentPadding
      leftColumnWidth := pageWidth - config.margin * 2 - config.contentPadding * 2
      rightColumnWidth := pageWidth - config.margin * 2 - config.contentPadding * 2
      useStacked := true }
  else
    { leftColumnX := config.margin + config.contentPadding
      rightColumnX := pageWidth * config.columnSplit
      leftColumnWidth := pageWidth * config.columnSplit - config.margin -
        config.contentPadding * 2
      rightColumnWidth := pageWidth * (1 - config.columnSplit) - config.margin -
        config.contentPadding
      useStacked := false }

/-- Which date/time source the composer renders. -/
inductive DateTimeSource
  | occDateEventTime (occDate : String) (time : String)
  | occDateOccTime (occDate : String) (occTime : String)
  | eventStart (startDatetime : String)
deriving Repr, DecidableEq

/-- The date/time resolution of `generateTicketPDF` (source lines 575-619):
for a recurring event with occurrence data, the occurrence date is combined
with `backendPricing.eventTime || ticketData.event.event_time` when that is
truthy, else with the occurrence's own time; otherwise the event's start
date/time is used. -/
def resolveDateTime (isRecurring : Option Bool) (tdEventTime : Option String)
    (startDatetime : String) (backendPricing : Option BackendPricing) :
    DateTimeSource :=
  match backendPricing with
  | some bp =>
    if boolTruthy isRecurring then
      match bp.occurrenceData with
      | some od =>
        let eventTime := strOrOpt bp.eventTime tdEventTime
        match eventTime with
        | some t =>
          if t ≠ "" then .occDateEventTime od.occurrence_date t
          else .occDateOccTime od.occurrence_date od.occurrence_time
        | none => .occDateOccTime od.occurrence_date od.occurrence_time
      | none => .eventStart startDatetime
    else .eventStart startDatetime
  | none => .eventStart startDatetime

/-- Example booking for the flat-total fallback: no occurrence reference and
no seat array. -/
def exFlatBooking : BookingRec :=
  { quantity := 4, total_price := some 100, convenience_fee := some 20 }

/-- Example flat-fallback booking with quantity 0 (division guard). -/
def exFlatZeroQty : BookingRec :=
  { quantity := 0, total_price := some 100 }

/-- Example booking whose seat array carries a zero-priced seat: the seat
path produces one entry whose accumulated base price is 0. -/
def exSeatZero : BookingRec :=
  { quantity := 2, total_price := some 100,
    seat_numbers := some [{ seat_category := some "VIP", quantity := some (QtyField.num 1) }] }

/-- A second zero-priced-seat booking (other totals). -/
def exSeatZero3 : BookingRec :=
  { quantity := 3, total_price := some 50,
    seat_numbers := some [{ seat_category := some "Balcony",
                            quantity := some (QtyField.num 1) }] }

/-- Example booking referencing an occurrence and an occurrence ticket
category. -/
def exOccBooking : BookingRec :=
  { quantity := 2, total_price := some 100,
    event_occurrence_id := some "occ-1", occurrence_ticket_category_id := some "cat-1" }

/-- An occurrence ticket category with base price 0. -/
def exOccCatZero : OccCat := ⟨"VIP", 0⟩

/-- An occurrence ticket category with base price 50. -/
def exOccCatVip : OccCat := ⟨"VIP", 50⟩

/-- Simp set that evaluates the reconciliation on concrete bookings. -/
lemma strTruthy_some (s : String) : strTruthy (some s) = (s != "") := rfl

/-- C5 counterexample: for the negative stored fee −1.18 the code returns
(0, 0): the sum of the two components is 0, not the stored fee, and the
pre-tax component is not fee ÷ 1.18 (which would be −1). -/
theorem C5_counterexample :
    convFeeDecomp (-(59 / 50)) = (0, 0) ∧
    (convFeeDecomp (-(59 / 50))).1 + (convFeeDecomp (-(59 / 50))).2 ≠ -(59 / 50) ∧
    (convFeeDecomp (-(59 / 50))).1 ≠ -(59 / 50) / 1.18 := by
  have h : convFeeDecomp (-(59 / 50)) = (0, 0) := by
    rw [convFeeDecomp, if_neg (by norm_num)]
  refine ⟨h, ?_, ?_⟩ <;> rw [h] <;> norm_num

/-- C5 (amended): for every NONNEGATIVE stored convenience fee f the
decomposition is exact: preTax + tax = f, with preTax = f ÷ 1.18 when
f > 0, and both components (0, 0) with no division when f = 0.  The
restriction to f ≥ 0 is forced: for f < 0 the code returns (0, 0). -/
theorem C5_amended (f : ℚ) (hf : 0 ≤ f) :
    (convFeeDecomp f).1 + (convFeeDecomp f).2 = f ∧
    (0 < f → (convFeeDecomp f).1 = f / 1.18) ∧
    (f = 0 → convFeeDecomp f = (0, 0)) := by
  rcases lt_or_eq_of_le hf with h | h
  · rw [convFeeDecomp, if_pos h]
    exact ⟨by ring, fun _ => rfl, fun h0 => absurd h0.symm (ne_of_lt h)⟩
  · rw [← h, convFeeDecomp, if_neg (by norm_num)]
    norm_num

/-- C5 witness: the amended theorem at the stored fee 1.18 (preTax 1,
GST 0.18). -/
theorem C5_witness :
    (convFeeDecomp 1.18).1 + (convFeeDecomp 1.18).2 = 1.18 ∧
    (0 < (1.18 : ℚ) → (convFeeDecomp 1.18).1 = 1.18 / 1.18) ∧
    ((1.18 : ℚ) = 0 → convFeeDecomp 1.18 = (0, 0)) :=
  C5_amended 1.18 (by norm_num)

/-- C8 counterexample: at page height 297 with y = 10 and h = 10 the content
stays within `pageHeight − 20`, yet `checkPageSpace` returns false: the
code's predicate is not "true iff it stays within". -/
theorem C8_counterexample :
    hasSpaceSpec 297 10 10 = true ∧ checkPageSpace 297 10 10 = false := by
  constructor
  · rw [hasSpaceSpec, decide_eq_true_eq]
    norm_num
  · rw [checkPageSpace]
    simp only [decide_eq_false_iff_not, not_lt]
    norm_num

/-- C8 (amended): `checkPageSpace` is the pointwise NEGATION of the
spec-level `hasSpace`: it returns true exactly when `y + requiredHeight`
does not stay within `pageHeight − 20` (its callers use it as a
"needs a new page" test). -/
theorem C8_amended (pageHeight currentY requiredSpace : ℚ) :
    checkPageSpace pageHeight currentY requiredSpace =
      !hasSpaceSpec pageHeight currentY requiredSpace := by
  rw [checkPageSpace, hasSpaceSpec, ← decide_not, decide_eq_decide]
  exact not_le.symm

/-- C10: when reconciliation reaches the flat-total fallback with no earlier
breakdown entries, `booking.quantity ≠ 0` is exactly the precondition for
the unit-price division `basePrice / booking.quantity`: with it the
reconciliation succeeds and emits the single General Admission entry; with
quantity = 0 the guarded division's error branch is reached and the
reconciliation fails. -/
theorem C10_flat_guard (b : BookingRec) (oc : Option OccCat) (bp q : ℚ)
    (hpre : preFallback b oc = some ([], bp, q)) :
    (b.quantity ≠ 0 →
      fetchPricingData (some b) oc =
        some (mkPricing b
          ([⟨"General Admission", b.quantity,
             (numOr b.total_price 0 - numOr b.convenience_fee 0) / b.quantity,
             numOr b.total_price 0 - numOr b.convenience_fee 0⟩],
           numOr b.total_price 0 - numOr b.convenience_fee 0, b.quantity))) ∧
    (b.quantity = 0 → fetchPricingData (some b) oc = none) := by
  have hbp : bp = 0 := by
    have hs := (preFallback_sums b oc [] bp q hpre).1
    simpa [bdTotalSum] using hs.symm
  subst hbp
  have hflat := flatFallback_empty b ([], 0, q) rfl rfl
  constructor
  · intro hq
    rw [fetch_some_iff]
    refine ⟨_, ?_, rfl⟩
    rw [hpre, Option.some_bind, hflat, if_neg hq]
  · intro hq
    simp only [fetchPricingData, hpre, Option.some_bind, hflat, if_pos hq]

/-- C10 witness: the flat fallback at quantity 4 (success, entry with unit
price 20) and at quantity 0 (the division guard fails the reconciliation). -/
theorem C10_witness :
    fetchPricingData (some exFlatBooking) none =
      some (mkPricing exFlatBooking
        ([⟨"General Admission", exFlatBooking.quantity,
           (numOr exFlatBooking.total_price 0 - numOr exFlatBooking.convenience_fee 0) /
             exFlatBooking.quantity,
           numOr exFlatBooking.total_price 0 - numOr exFlatBooking.convenience_fee 0⟩],
         numOr exFlatBooking.total_price 0 - numOr exFlatBooking.convenience_fee 0,
         exFlatBooking.quantity)) ∧
    fetchPricingData (some exFlatZeroQty) none = none := by
  constructor
  · exact (C10_flat_guard exFlatBooking none 0 0 rfl).1 (by norm_num [exFlatBooking])
  · exact (C10_flat_guard exFlatZeroQty none 0 0 rfl).2 rfl

/-- C4 counterexample: a booking referencing an occurrence ticket category
with base price 0 and quantity 2: unitPrice × quantity = 0, but because the
accumulated base price is 0 the flat fallback overwrites the reconciled
basePrice with totalPrice − convenienceFee = 100, so basePrice differs from
unitPrice × quantity. -/
theorem C4_counterexample :
    (fetchPricingData (some exOccBooking) (some exOccCatZero)).map
        (fun p => p.basePrice) = some 100 ∧
    exOccCatZero.base_price * exOccBooking.quantity ≠ 100 := by
  have hocc : occBranch exOccBooking (some exOccCatZero) =
      ([⟨"VIP", 2, 0, 0⟩], 0, 2) := by
    unfold occBranch
    rw [if_pos (by rfl)]
    norm_num [exOccBooking, exOccCatZero]
  have hpre : preFallback exOccBooking (some exOccCatZero) =
      some ([⟨"VIP", 2, 0, 0⟩], 0, 2) := by
    rw [preFallback_occ _ _ (by rw [hocc]; simp), hocc]
  have hbind : (preFallback exOccBooking (some exOccCatZero)).bind
      (flatFallback exOccBooking) = some ([⟨"VIP", 2, 0, 0⟩], 100, 2) := by
    rw [hpre, Option.some_bind, flatFallback_zero_entries _ _ rfl (by simp)]
    norm_num [exOccBooking, numOr]
  constructor
  · simp only [fetchPricingData, hbind, Option.map_some']
  · norm_num [exOccBooking, exOccCatZero]

/-- C4 (amended): for every booking referencing both an occurrence and an
occurrence ticket category whose fetch succeeded, PROVIDED the category's
base price times the booking quantity is nonzero, the reconciled basePrice
equals that product and the breakdown is exactly the single entry
{category name, booking.quantity, base price, product}.  The nonzero
proviso is forced: with product 0 the flat fallback overwrites basePrice
(see the counterexample). -/
theorem C4_amended (b : BookingRec) (oc : OccCat) (p : BackendPricing)
    (h1 : strTruthy b.event_occurrence_id = true)
    (h2 : strTruthy b.occurrence_ticket_category_id = true)
    (hnz : oc.base_price * b.quantity ≠ 0)
    (h : fetchPricingData (some b) (some oc) = some p) :
    p.basePrice = oc.base_price * b.quantity ∧
    p.categoryBreakdown =
      [⟨oc.category_name, b.quantity, oc.base_price, oc.base_price * b.quantity⟩] ∧
    p.actualTotalQuantity = b.quantity := by
  have hocc : occBranch b (some oc) =
      ([⟨oc.category_name, b.quantity, oc.base_price, oc.base_price * b.quantity⟩],
       oc.base_price * b.quantity, b.quantity) := by
    unfold occBranch
    rw [if_pos (by simp [h1, h2])]
  have hpre : preFallback b (some oc) = some (occBranch b (some oc)) :=
    preFallback_occ b (some oc) (by rw [hocc]; simp)
  rw [hocc] at hpre
  rw [fetch_some_iff] at h
  obtain ⟨r3, hr3, rfl⟩ := h
  rw [hpre, Option.some_bind, flatFallback_nonzero _ _ (by simpa using hnz)] at hr3
  obtain rfl := Option.some.inj hr3
  exact ⟨rfl, rfl, rfl⟩

/-- C4 witness: the amended theorem at the category (VIP, 50) and quantity
2: basePrice 100 and the single entry {VIP, 2, 50, 100}. -/
theorem C4_witness :
    (mkPricing exOccBooking
        ([⟨exOccCatVip.category_name, exOccBooking.quantity, exOccCatVip.base_price,
           exOccCatVip.base_price * exOccBooking.quantity⟩],
         exOccCatVip.base_price * exOccBooking.quantity,
         exOccBooking.quantity)).basePrice =
      exOccCatVip.base_price * exOccBooking.quantity ∧
    (mkPricing exOccBooking
        ([⟨exOccCatVip.category_name, exOccBooking.quantity, exOccCatVip.base_price,
           exOccCatVip.base_price * exOccBooking.quantity⟩],
         exOccCatVip.base_price * exOccBooking.quantity,
         exOccBooking.quantity)).categoryBreakdown =
      [⟨exOccCatVip.category_name, exOccBooking.quantity, exOccCatVip.base_price,
        exOccCatVip.base_price * exOccBooking.quantity⟩] ∧
    (mkPricing exOccBooking
        ([⟨exOccCatVip.category_name, exOccBooking.quantity, exOccCatVip.base_price,
           exOccCatVip.base_price * exOccBooking.quantity⟩],
         exOccCatVip.base_price * exOccBooking.quantity,
         exOccBooking.quantity)).actualTotalQuantity = exOccBooking.quantity := by
  refine C4_amended exOccBooking exOccCatVip _ rfl rfl (by norm_num [exOccBooking, exOccCatVip]) ?_
  rw [fetch_some_iff]
  refine ⟨_, ?_, rfl⟩
  have hocc : occBranch exOccBooking (some exOccCatVip) =
      ([⟨exOccCatVip.category_name, exOccBooking.quantity, exOccCatVip.base_price,
         exOccCatVip.base_price * exOccBooking.quantity⟩],
       exOccCatVip.base_price * exOccBooking.quantity, exOccBooking.quantity) := by
    unfold occBranch
    rw [if_pos (by rfl)]
  have hpre : preFallback exOccBooking (some exOccCatVip) =
      some (occBranch exOccBooking (some exOccCatVip)) :=
    preFallback_occ _ _ (by rw [hocc]; simp)
  rw [hocc] at hpre
  rw [hpre, Option.some_bind,
    flatFallback_nonzero _ _ (by norm_num [exOccBooking, exOccCatVip])]

/-- C3 counterexample: the seat path produced one entry (with accumulated
base price 0), yet the flat fallback still overwrites the reconciled base
price with totalPrice − convenienceFee = 50 and actualTotalQuantity with
booking.quantity = 3, contradicting "the flat fallback does not alter the
reconciled base price or breakdown" for bookings where an earlier path
produced entries. -/
theorem C3_counterexample :
    (preFallback exSeatZero3 none).map (fun r => r.1.length) = some 1 ∧
    (preFallback exSeatZero3 none).map (fun r => r.2.1) = some 0 ∧
    (fetchPricingData (some exSeatZero3) none).map (fun p => p.basePrice) = some 50 ∧
    (50 : ℚ) ≠ 0 := by
  refine ⟨?_, ?_, ?_, by norm_num⟩ <;>
    norm_num [fetchPricingData, preFallback, occBranch, flatFallback, runSeats,
      resolveQtys, resolveSeatQty, resolveSeatQtyBooked, QtyField.truthy, QtyField.toNum,
      seatStep, updateCat, resolveSeatCategory, resolveSeatPrice, strOr, numOr,
      strTruthy, toEntry, mkPricing, exSeatZero3, List.lookup]

/-- C3 (amended): the flat fallback's General Admission entry is emitted
exactly when neither earlier path produced entries (then basePrice =
totalPrice − convenienceFee, quantity = booking.quantity); and when an
earlier path produced entries with NONZERO accumulated base price nothing
is altered.  (When entries exist but their accumulated base price is 0 the
fallback still overwrites basePrice and actualTotalQuantity — the
counterexample — which is the one divergence from the claim.) -/
theorem C3_amended (b : BookingRec) (oc : Option OccCat)
    (bd : List BreakdownEntry) (bp q : ℚ) (p : BackendPricing)
    (hpre : preFallback b oc = some (bd, bp, q))
    (h : fetchPricingData (some b) oc = some p) :
    (bd = [] →
      p.basePrice = numOr b.total_price 0 - numOr b.convenience_fee 0 ∧
      p.categoryBreakdown =
        [⟨"General Admission", b.quantity,
          (numOr b.total_price 0 - numOr b.convenience_fee 0) / b.quantity,
          numOr b.total_price 0 - numOr b.convenience_fee 0⟩] ∧
      p.actualTotalQuantity = b.quantity) ∧
    (bp ≠ 0 →
      p.basePrice = bp ∧ p.categoryBreakdown = bd ∧ p.actualTotalQuantity = q) := by
  rw [fetch_some_iff] at h
  obtain ⟨r3, hr3, rfl⟩ := h
  rw [hpre, Option.some_bind] at hr3
  constructor
  · intro hbd
    subst hbd
    have hbp : bp = 0 := by
      have hs := (preFallback_sums b oc [] bp q hpre).1
      simpa [bdTotalSum] using hs.symm
    subst hbp
    rw [flatFallback_empty b ([], 0, q) rfl rfl] at hr3
    by_cases hq : b.quantity = 0
    · rw [if_pos hq] at hr3
      exact absurd hr3 (by simp)
    · rw [if_neg hq] at hr3
      obtain rfl := Option.some.inj hr3
      exact ⟨rfl, rfl, rfl⟩
  · intro hbp
    rw [flatFallback_nonzero b _ (by simpa using hbp)] at hr3
    obtain rfl := Option.some.inj hr3
    exact ⟨rfl, rfl, rfl⟩

/-- C3 witness: the amended theorem at the flat-fallback booking (quantity
4, total 100, fee 20): the single General Admission entry with line total
80. -/
theorem C3_witness :
    (([] : List BreakdownEntry) = [] →
      (mkPricing exFlatBooking
        ([⟨"General Admission", exFlatBooking.quantity,
           (numOr exFlatBooking.total_price 0 - numOr exFlatBooking.convenience_fee 0) /
             exFlatBooking.quantity,
           numOr exFlatBooking.total_price 0 - numOr exFlatBooking.convenience_fee 0⟩],
         numOr exFlatBooking.total_price 0 - numOr exFlatBooking.convenience_fee 0,
         exFlatBooking.quantity)).basePrice =
        numOr exFlatBooking.total_price 0 - numOr exFlatBooking.convenience_fee 0 ∧
      (mkPricing exFlatBooking
        ([⟨"General Admission", exFlatBooking.quantity,
           (numOr exFlatBooking.total_price 0 - numOr exFlatBooking.convenience_fee 0) /
             exFlatBooking.quantity,
           numOr exFlatBooking.total_price 0 - numOr exFlatBooking.convenience_fee 0⟩],
         numOr exFlatBooking.total_price 0 - numOr exFlatBooking.convenience_fee 0,
         exFlatBooking.quantity)).categoryBreakdown =
        [⟨"General Admission", exFlatBooking.quantity,
          (numOr exFlatBooking.total_price 0 - numOr exFlatBooking.convenience_fee 0) /
            exFlatBooking.quantity,
          numOr exFlatBooking.total_price 0 - numOr exFlatBooking.convenience_fee 0⟩] ∧
      (mkPricing exFlatBooking
        ([⟨"General Admission", exFlatBooking.quantity,
           (numOr exFlatBooking.total_price 0 - numOr exFlatBooking.convenience_fee 0) /
             exFlatBooking.quantity,
           numOr exFlatBooking.total_price 0 - numOr exFlatBooking.convenience_fee 0⟩],
         numOr exFlatBooking.total_price 0 - numOr exFlatBooking.convenience_fee 0,
         exFlatBooking.quantity)).actualTotalQuantity = exFlatBooking.quantity) ∧
    ((0 : ℚ) ≠ 0 →
      (mkPricing exFlatBooking
        ([⟨"General Admission", exFlatBooking.quantity,
           (numOr exFlatBooking.total_price 0 - numOr exFlatBooking.convenience_fee 0) /
             exFlatBooking.quantity,
           numOr exFlatBooking.total_price 0 - numOr exFlatBooking.convenience_fee 0⟩],
         numOr exFlatBooking.total_price 0 - numOr exFlatBooking.convenience_fee 0,
         exFlatBooking.quantity)).basePrice = 0 ∧
      (mkPricing exFlatBooking
        ([⟨"General Admission", exFlatBooking.quantity,
           (numOr exFlatBooking.total_price 0 - numOr exFlatBooking.convenience_fee 0) /
             exFlatBooking.quantity,
           numOr exFlatBooking.total_price 0 - numOr exFlatBooking.convenience_fee 0⟩],
         numOr exFlatBooking.total_price 0 - numOr exFlatBooking.convenience_fee 0,
         exFlatBooking.quantity)).categoryBreakdown = [] ∧
      (mkPricing exFlatBooking
        ([⟨"General Admission", exFlatBooking.quantity,
           (numOr exFlatBooking.total_price 0 - numOr exFlatBooking.convenience_fee 0) /
             exFlatBooking.quantity,
           numOr exFlatBooking.total_price 0 - numOr exFlatBooking.convenience_fee 0⟩],
         numOr exFlatBooking.total_price 0 - numOr exFlatBooking.convenience_fee 0,
         exFlatBooking.quantity)).actualTotalQuantity = 0) := by
  refine C3_amended exFlatBooking none [] 0 0 _ rfl ?_
  rw [fetch_some_iff]
  refine ⟨_, ?_, rfl⟩
  rw [show preFallback exFlatBooking none = some ([], 0, 0) from rfl, Option.some_bind,
    flatFallback_empty exFlatBooking ([], 0, 0) rfl rfl,
    if_neg (by norm_num [exFlatBooking])]

/-- C1 counterexample: for the zero-priced-seat booking the reconciliation
returns breakdown line totals summing to 0 while basePrice is 100, and
breakdown quantities summing to 1 while actualTotalQuantity is 2: both
halves of the claimed invariant fail. -/
theorem C1_counterexample :
    (fetchPricingData (some exSeatZero) none).map
        (fun p => (bdTotalSum p.categoryBreakdown, p.basePrice,
                   bdQtySum p.categoryBreakdown, p.actualTotalQuantity)) =
      some (0, 100, 1, 2) ∧
    (0 : ℚ) ≠ 100 ∧ (1 : ℚ) ≠ 2 := by
  refine ⟨?_, by norm_num, by norm_num⟩
  norm_num [fetchPricingData, preFallback, occBranch, flatFallback, runSeats,
    resolveQtys, resolveSeatQty, resolveSeatQtyBooked, QtyField.truthy, QtyField.toNum,
    seatStep, updateCat, resolveSeatCategory, resolveSeatPrice, strOr, numOr,
    strTruthy, toEntry, mkPricing, exSeatZero, List.lookup, bdTotalSum, bdQtySum]

/-- C1 (amended): the invariant holds for every successfully reconciled
pricing PROVIDED the occurrence/seat paths either accumulated a nonzero
base price or produced no entries: then the breakdown's line totals sum
exactly to the reconciled basePrice and its quantities sum exactly to
actualTotalQuantity.  The proviso is forced: when entries exist with
accumulated base price 0, the flat fallback overwrites basePrice and
actualTotalQuantity without touching the breakdown (see the
counterexample). -/
theorem C1_amended (b : BookingRec) (oc : Option OccCat)
    (bd : List BreakdownEntry) (bp q : ℚ) (p : BackendPricing)
    (hpre : preFallback b oc = some (bd, bp, q))
    (hgood : bp ≠ 0 ∨ bd = [])
    (h : fetchPricingData (some b) oc = some p) :
    bdTotalSum p.categoryBreakdown = p.basePrice ∧
    bdQtySum p.categoryBreakdown = p.actualTotalQuantity := by
  rw [fetch_some_iff] at h
  obtain ⟨r3, hr3, rfl⟩ := h
  rw [hpre, Option.some_bind] at hr3
  rcases hgood with hbp | hbd
  · rw [flatFallback_nonzero b _ (by simpa using hbp)] at hr3
    obtain rfl := Option.some.inj hr3
    exact preFallback_sums b oc bd bp q hpre
  · subst hbd
    have hbp : bp = 0 := by
      have hs := (preFallback_sums b oc [] bp q hpre).1
      simpa [bdTotalSum] using hs.symm
    subst hbp
    rw [flatFallback_empty b ([], 0, q) rfl rfl] at hr3
    by_cases hq : b.quantity = 0
    · rw [if_pos hq] at hr3
      exact absurd hr3 (by simp)
    · rw [if_neg hq] at hr3
      obtain rfl := Option.some.inj hr3
      constructor
      · simp [mkPricing, bdTotalSum]
      · simp [mkPricing, bdQtySum]

/-- C1 witness: the invariant at the flat-fallback booking: line totals sum
to 80 = basePrice, quantities to 4 = actualTotalQuantity. -/
theorem C1_witness :
    bdTotalSum (mkPricing exFlatBooking
        ([⟨"General Admission", exFlatBooking.quantity,
           (numOr exFlatBooking.total_price 0 - numOr exFlatBooking.convenience_fee 0) /
             exFlatBooking.quantity,
           numOr exFlatBooking.total_price 0 - numOr exFlatBooking.convenience_fee 0⟩],
         numOr exFlatBooking.total_price 0 - numOr exFlatBooking.convenience_fee 0,
         exFlatBooking.quantity)).categoryBreakdown =
      (mkPricing exFlatBooking
        ([⟨"General Admission", exFlatBooking.quantity,
           (numOr exFlatBooking.total_price 0 - numOr exFlatBooking.convenience_fee 0) /
             exFlatBooking.quantity,
           numOr exFlatBooking.total_price 0 - numOr exFlatBooking.convenience_fee 0⟩],
         numOr exFlatBooking.total_price 0 - numOr exFlatBooking.convenience_fee 0,
         exFlatBooking.quantity)).basePrice ∧
    bdQtySum (mkPricing exFlatBooking
        ([⟨"General Admission", exFlatBooking.quantity,
           (numOr exFlatBooking.total_price 0 - numOr exFlatBooking.convenience_fee 0) /
             exFlatBooking.quantity,
           numOr exFlatBooking.total_price 0 - numOr exFlatBooking.convenience_fee 0⟩],
         numOr exFlatBooking.total_price 0 - numOr exFlatBooking.convenience_fee 0,
         exFlatBooking.quantity)).categoryBreakdown =
      (mkPricing exFlatBooking
        ([⟨"General Admission", exFlatBooking.quantity,
           (numOr exFlatBooking.total_price 0 - numOr exFlatBooking.convenience_fee 0) /
             exFlatBooking.quantity,
           numOr exFlatBooking.total_price 0 - numOr exFlatBooking.convenience_fee 0⟩],
         numOr exFlatBooking.total_price 0 - numOr exFlatBooking.convenience_fee 0,
         exFlatBooking.quantity)).actualTotalQuantity := by
  refine C1_amended exFlatBooking none [] 0 0 _ rfl (Or.inr rfl) ?_
  rw [fetch_some_iff]
  refine ⟨_, ?_, rfl⟩
  rw [show preFallback exFlatBooking none = some ([], 0, 0) from rfl, Option.some_bind,
    flatFallback_empty exFlatBooking ([], 0, 0) rfl rfl,
    if_neg (by norm_num [exFlatBooking])]

lemma decimalReprAux_spec (fuel n : ℕ) (h : n < fuel) :
    (∀ c ∈ decimalReprAux fuel n, c.isDigit = true) ∧
    decimalReprAux fuel n ≠ [] ∧
    (n < 10 → (decimalReprAux fuel n).length = 1) ∧
    (10 ≤ n → 2 ≤ (decimalReprAux fuel n).length) ∧
    (n < 100 → (decimalReprAux fuel n).length ≤ 2) := by
  induction fuel generalizing n with
  | zero => omega
  | succ fuel ih =>
    by_cases h10 : n < 10
    · simp only [decimalReprAux, if_pos h10]
      refine ⟨?_, by simp, fun _ => by simp, fun hge => absurd hge (by omega),
        fun _ => by simp⟩
      intro c hc
      simp only [List.mem_singleton] at hc
      subst hc
      interval_cases n <;> decide
    · simp only [decimalReprAux, if_neg h10]
      have hfuel : n / 10 < fuel := by omega
      obtain ⟨hdig, hne, hlen1, _, _⟩ := ih (n / 10) hfuel
      have hmod : (digitChar (n % 10)).isDigit = true := by
        have hm : n % 10 < 10 := Nat.mod_lt _ (by omega)
        set m := n % 10 with hmdef
        interval_cases m <;> decide
      refine ⟨?_, by simp, fun hlt => absurd hlt (by omega), ?_, ?_⟩
      · intro c hc
        rcases List.mem_append.mp hc with hc | hc
        · exact hdig c hc
        · simp only [List.mem_singleton] at hc
          subst hc
          exact hmod
      · intro _
        have hp := List.length_pos.mpr hne
        simp only [List.length_append, List.length_singleton]
        omega
      · intro h100
        have hsmall : n / 10 < 10 := by omega
        have hl := hlen1 hsmall
        simp only [List.length_append, List.length_singleton]
        omega

lemma decimalRepr_spec (n : ℕ) :
    (∀ c ∈ decimalRepr n, c.isDigit = true) ∧ decimalRepr n ≠ [] ∧
    (n < 10 → (decimalRepr n).length = 1) ∧
    (10 ≤ n → 2 ≤ (decimalRepr n).length) ∧
    (n < 100 → (decimalRepr n).length ≤ 2) :=
  decimalReprAux_spec (n + 1) n (by omega)

lemma padStart2_spec (l : List Char) (hdig : ∀ c ∈ l, c.isDigit = true)
    (hne : l ≠ []) (hle : l.length ≤ 2) :
    (padStart2 l).length = 2 ∧ ∀ c ∈ padStart2 l, c.isDigit = true := by
  have hpos := List.length_pos.mpr hne
  unfold padStart2
  by_cases h2 : l.length ≥ 2
  · rw [if_pos h2]
    exact ⟨by omega, hdig⟩
  · rw [if_neg h2]
    constructor
    · simp only [List.length_append, List.length_replicate]
      omega
    · intro c hc
      rcases List.mem_append.mp hc with hc | hc
      · have hc0 := List.eq_of_mem_replicate hc
        subst hc0
        decide
      · exact hdig c hc

lemma sliceLast_length (n : ℕ) (l : List Char) :
    (sliceLast n l).length = min n l.length := by
  simp only [sliceLast, List.length_drop]
  omega

lemma sliceLast_subset (n : ℕ) (l : List Char) : ∀ c ∈ sliceLast n l, c ∈ l :=
  fun _ hc => List.drop_subset _ l hc

/-- The ASCII letters and digits (the amended domain of booking-id
characters). -/
def asciiAlnum : List Char :=
  "abcdefghijklmnopqrstuvwxyzABCDEFGHIJKLMNOPQRSTUVWXYZ0123456789".data

lemma toUpper_alnum : ∀ c ∈ asciiAlnum, isUpperOrDigit c.toUpper = true := by decide

/-- C6 counterexample: for the empty booking id the suffix is empty, so the
output `INV-250307-` does not match `INV-\x5cd{6}-[A-Z0-9]{1,6}$`; the claim
quantified over every booking id string is therefore false. -/
theorem C6_counterexample :
    generateInvoiceNumber "" ⟨2025, 2, 7⟩ = "INV-250307-" ∧
    matchesInvoicePattern (generateInvoiceNumber "" ⟨2025, 2, 7⟩) = false := by
  constructor <;> decide

/-- C6 (amended): for every booking id that is non-empty and consists of
ASCII letters and digits, and every booking date with a two-or-more-digit
year (10 ≤ year ≤ any), month index ≤ 11 and day ≤ 31,
`generateInvoiceNumber` matches `INV-\x5cd{6}-[A-Z0-9]{1,6}$`.  (The code is a
pure function by construction; ids with other characters, or the empty id,
break the suffix character class — see the counterexample.) -/
theorem C6_amended (bookingId : String) (d : JDate)
    (hid : bookingId.data ≠ [])
    (hchars : ∀ c ∈ bookingId.data, c ∈ asciiAlnum)
    (hy : 10 ≤ d.year) (hm : d.month ≤ 11) (hday : d.day ≤ 31) :
    matchesInvoicePattern (generateInvoiceNumber bookingId d) = true := by
  obtain ⟨hyd, -, -, hylen2, -⟩ := decimalRepr_spec d.year
  obtain ⟨hmd, hmne, -, -, hmlen⟩ := decimalRepr_spec (d.month + 1)
  obtain ⟨hdd, hdne, -, -, hdlen⟩ := decimalRepr_spec d.day
  set yy := sliceLast 2 (decimalRepr d.year) with hyydef
  set mm := padStart2 (decimalRepr (d.month + 1)) with hmmdef
  set dd := padStart2 (decimalRepr d.day) with hdddef
  set suf := jsUpper (sliceLast 6 bookingId.data) with hsufdef
  have hyy_len : yy.length = 2 := by
    rw [hyydef, sliceLast_length]
    have h2 := hylen2 hy
    omega
  have hyy_dig : ∀ c ∈ yy, c.isDigit = true :=
    fun c hc => hyd c (sliceLast_subset _ _ c hc)
  obtain ⟨hmm_len, hmm_dig⟩ := padStart2_spec _ hmd hmne (hmlen (by omega))
  obtain ⟨hdd_len, hdd_dig⟩ := padStart2_spec _ hdd hdne (hdlen (by omega))
  have hsuf_len : suf.length = min 6 bookingId.data.length := by
    rw [hsufdef, jsUpper, List.length_map, sliceLast_length]
  have hsuf_ge : 1 ≤ suf.length := by
    rw [hsuf_len]
    have hp := List.length_pos.mpr hid
    omega
  have hsuf_le : suf.length ≤ 6 := by
    rw [hsuf_len]
    omega
  have hsuf_ok : ∀ c ∈ suf, isUpperOrDigit c = true := by
    intro c hc
    rw [hsufdef, jsUpper] at hc
    obtain ⟨c0, hc0, rfl⟩ := List.mem_map.mp hc
    exact toUpper_alnum c0 (hchars c0 (sliceLast_subset _ _ c0 hc0))
  have hdata : (generateInvoiceNumber bookingId d).data =
      "INV-".data ++ ((yy ++ mm ++ dd) ++ ('-' :: suf)) := by
    rw [generateInvoiceNumber]
    simp [List.append_assoc]
  have hlen6 : (yy ++ mm ++ dd).length = 6 := by
    simp only [List.length_append, hyy_len, hmm_len, hdd_len]
  have h1 : ((generateInvoiceNumber bookingId d).data).take 4 = "INV-".data := by
    rw [hdata]
    exact List.take_left' rfl
  have h2 : ((generateInvoiceNumber bookingId d).data).drop 4 =
      (yy ++ mm ++ dd) ++ ('-' :: suf) := by
    rw [hdata]
    exact List.drop_left' rfl
  have h3 : (((generateInvoiceNumber bookingId d).data).drop 4).take 6 =
      yy ++ mm ++ dd := by
    rw [h2]
    exact List.take_left' hlen6
  have h5 : ((generateInvoiceNumber bookingId d).data).drop 10 = '-' :: suf := by
    rw [show (10 : ℕ) = 4 + 6 from rfl, ← List.drop_drop, h2]
    exact List.drop_left' hlen6
  have h6 : ((generateInvoiceNumber bookingId d).data).drop 11 = suf := by
    rw [show (11 : ℕ) = 10 + 1 from rfl, ← List.drop_drop, h5]
    rfl
  rw [matchesInvoicePattern]
  simp only [h1, h3, h5, h6, List.take_cons, List.take_zero]
  simp only [Bool.and_eq_true, decide_eq_true_eq, List.all_eq_true]
  refine ⟨⟨⟨⟨⟨⟨trivial, hlen6⟩, ?_⟩, by simp⟩, hsuf_ge⟩, hsuf_le⟩, hsuf_ok⟩
  intro c hc
  rcases List.mem_append.mp hc with hc | hc
  · rcases List.mem_append.mp hc with hc | hc
    · exact hyy_dig c hc
    · exact hmm_dig c hc
  · exact hdd_dig c hc

/-- C6 witness: spec scenario A: id `abc123456789`, date 2025-03-07 →
`INV-250307-456789`, matching the pattern. -/
theorem C6_witness :
    matchesInvoicePattern (generateInvoiceNumber "abc123456789" ⟨2025, 2, 7⟩) = true :=
  C6_amended "abc123456789" ⟨2025, 2, 7⟩ (by decide) (by decide) (by decide)
    (by decide) (by decide)

/-- Example recurring-event booking with an occurrence join (scenario B
values): occurrence date 2025-06-01, occurrence time 20:00, canonical event
time 19:30. -/
def exRecurBooking : BookingRec :=
  { quantity := 1, total_price := some 100,
    event_occurrence_id := some "occ-9",
    event_occurrences := some ⟨"2025-06-01", "20:00"⟩,
    event_event_time := some "19:30" }

/-- C7: for every recurring-event ticket whose reconciliation succeeded for
a booking with an occurrence reference and an occurrence join, the composer
renders the occurrence's date with the event's canonical time-of-day
(`backendPricing.eventTime || ticketData.event.event_time`) when that is a
non-empty string, the occurrence's own stored time only when the canonical
time is absent or empty, and for every non-recurring event the event's
start date/time. -/
theorem C7_datetime (b : BookingRec) (oc : Option OccCat) (p : BackendPricing)
    (od : OccRec) (tdTime : Option String) (sd : String)
    (h1 : strTruthy b.event_occurrence_id = true)
    (h2 : b.event_occurrences = some od)
    (h : fetchPricingData (some b) oc = some p) :
    (∀ t, strOrOpt b.event_event_time tdTime = some t → t ≠ "" →
      resolveDateTime (some true) tdTime sd (some p) =
        DateTimeSource.occDateEventTime od.occurrence_date t) ∧
    ((strOrOpt b.event_event_time tdTime = none ∨
      strOrOpt b.event_event_time tdTime = some "") →
      resolveDateTime (some true) tdTime sd (some p) =
        DateTimeSource.occDateOccTime od.occurrence_date od.occurrence_time) ∧
    (∀ ir bp2, boolTruthy ir = false →
      resolveDateTime ir tdTime sd bp2 = DateTimeSource.eventStart sd) := by
  rw [fetch_some_iff] at h
  obtain ⟨r3, hr3, rfl⟩ := h
  have hocc : (mkPricing b r3).occurrenceData = some od := by
    rw [mkPricing]
    simp [h1, h2]
  have het : (mkPricing b r3).eventTime = b.event_event_time := rfl
  refine ⟨?_, ?_, ?_⟩
  · intro t ht htne
    rw [resolveDateTime]
    simp only [boolTruthy, if_true, hocc, het, ht, htne]
    simp [htne]
  · intro hcase
    rw [resolveDateTime]
    rcases hcase with hc | hc
    · simp [boolTruthy, hocc, het, hc]
    · simp [boolTruthy, hocc, het, hc]
  · intro ir bp2 hir
    rcases bp2 with _ | bp3
    · rw [resolveDateTime]
    · rw [resolveDateTime]
      simp [hir]

/-- C7 witness: scenario B: occurrence date 2025-06-01, canonical event
time 19:30 present, occurrence time 20:00 → the rendered source is the
occurrence date with the canonical 19:30 time; and a non-recurring ticket
uses the event start. -/
theorem C7_witness :
    resolveDateTime (some true) none "2025-01-01T10:00:00"
        (some (mkPricing exRecurBooking
          ([⟨"General Admission", 1, 100, 100⟩], 100, 1))) =
      DateTimeSource.occDateEventTime "2025-06-01" "19:30" ∧
    resolveDateTime (some false) none "2025-01-01T10:00:00"
        (some (mkPricing exRecurBooking
          ([⟨"General Admission", 1, 100, 100⟩], 100, 1))) =
      DateTimeSource.eventStart "2025-01-01T10:00:00" := by
  have hfetch : fetchPricingData (some exRecurBooking) none =
      some (mkPricing exRecurBooking ([⟨"General Admission", 1, 100, 100⟩], 100, 1)) := by
    rw [fetch_some_iff]
    refine ⟨_, ?_, rfl⟩
    have hpre : preFallback exRecurBooking none = some ([], 0, 0) := by
      rw [preFallback_none_seats _ _ (by rfl) rfl]
      rfl
    rw [hpre, Option.some_bind, flatFallback_empty _ ([], 0, 0) rfl rfl,
      if_neg (by norm_num [exRecurBooking])]
    norm_num [exRecurBooking, numOr]
  have hthm := C7_datetime exRecurBooking none _ ⟨"2025-06-01", "20:00"⟩ none
    "2025-01-01T10:00:00" rfl rfl hfetch
  constructor
  · exact hthm.1 "19:30" rfl (by decide)
  · exact hthm.2.2 (some false) _ rfl

lemma clampedScale_mono (k lo hi h w1 w2 : ℚ) (hk : 0 ≤ k) (h0 : 0 ≤ w1)
    (hw : w1 ≤ w2) (hh : 0 ≤ h) :
    max lo (min hi (w1 * k * min (w1 / 210) (h / 297))) ≤
      max lo (min hi (w2 * k * min (w2 / 210) (h / 297))) := by
  have h0' : (0 : ℚ) ≤ w2 := h0.trans hw
  have hs1 : (0 : ℚ) ≤ min (w1 / 210) (h / 297) :=
    le_min (by positivity) (by positivity)
  have hs : min (w1 / 210) (h / 297) ≤ min (w2 / 210) (h / 297) :=
    min_le_min (by gcongr) le_rfl
  have hcore : w1 * k * min (w1 / 210) (h / 297) ≤ w2 * k * min (w2 / 210) (h / 297) :=
    mul_le_mul (mul_le_mul_of_nonneg_right hw hk) hs hs1 (mul_nonneg h0' hk)
  exact max_le_max le_rfl (min_le_min le_rfl hcore)

/-- C9: at a fixed nonnegative page height, every resolved font size (title,
subtitle, heading, body, small) is monotonically non-decreasing in the page
width for widths in the same size tier; the layout's stacked flag is true
exactly for widths under the 150 threshold; and a stacked layout gives the
left and right columns the same x-origin and the same width. -/
theorem C9_layout :
    (∀ h w1 w2 : ℚ, 0 ≤ w1 → w1 ≤ w2 → 0 ≤ h → sizeTier w1 h = sizeTier w2 h →
      (getResponsiveConfig w1 h).fontSize.title ≤ (getResponsiveConfig w2 h).fontSize.title ∧
      (getResponsiveConfig w1 h).fontSize.subtitle ≤ (getResponsiveConfig w2 h).fontSize.subtitle ∧
      (getResponsiveConfig w1 h).fontSize.heading ≤ (getResponsiveConfig w2 h).fontSize.heading ∧
      (getResponsiveConfig w1 h).fontSize.body ≤ (getResponsiveConfig w2 h).fontSize.body ∧
      (getResponsiveConfig w1 h).fontSize.small ≤ (getResponsiveConfig w2 h).fontSize.small) ∧
    (∀ cfg : ResponsiveConfig, ∀ w : ℚ,
      (getLayoutConfig cfg w).useStacked = true ↔ w < 150) ∧
    (∀ cfg : ResponsiveConfig, ∀ w : ℚ, w < 150 →
      (getLayoutConfig cfg w).leftColumnX = (getLayoutConfig cfg w).rightColumnX ∧
      (getLayoutConfig cfg w).leftColumnWidth = (getLayoutConfig cfg w).rightColumnWidth) := by
  refine ⟨?_, ?_, ?_⟩
  · intro h w1 w2 h0 hw hh _
    exact ⟨clampedScale_mono 0.065 12 20 h w1 w2 (by norm_num) h0 hw hh,
      clampedScale_mono 0.028 7 12 h w1 w2 (by norm_num) h0 hw hh,
      clampedScale_mono 0.032 9 14 h w1 w2 (by norm_num) h0 hw hh,
      clampedScale_mono 0.024 7 11 h w1 w2 (by norm_num) h0 hw hh,
      clampedScale_mono 0.020 6 9 h w1 w2 (by norm_num) h0 hw hh⟩
  · intro cfg w
    by_cases hw : w < 150
    · simp [getLayoutConfig, hw]
    · simp [getLayoutConfig, hw]
  · intro cfg w hw
    simp [getLayoutConfig, hw]

/-- C9 witness: the monotonicity conjunct at height 297 and widths 180 ≤ 190
(both in the medium tier), and the stacked geometry at width 100. -/
theorem C9_witness :
    (getResponsiveConfig 180 297).fontSize.title ≤
      (getResponsiveConfig 190 297).fontSize.title ∧
    ((getLayoutConfig (getResponsiveConfig 100 297) 100).useStacked = true ↔
      (100 : ℚ) < 150) ∧
    (getLayoutConfig (getResponsiveConfig 100 297) 100).leftColumnX =
      (getLayoutConfig (getResponsiveConfig 100 297) 100).rightColumnX := by
  refine ⟨?_, ?_, ?_⟩
  · exact (C9_layout.1 297 180 190 (by norm_num) (by norm_num) (by norm_num)
      (by norm_num [sizeTier])).1
  · exact C9_layout.2.1 (getResponsiveConfig 100 297) 100
  · exact (C9_layout.2.2 (getResponsiveConfig 100 297) 100 (by norm_num)).1

/-- C2: for every booking with a non-empty seat array whose occurrence path
produced no entries and whose reconciliation succeeded (per-seat categories,
prices and quantities resolved by `resolveSeatCategory`, `resolveSeatPrice`
and `resolveSeatQty` — the explicit field, then the legacy field, then the
default, with string quantities coerced through `parseInt`): the breakdown
has one entry per distinct resolved category, the breakdown quantities sum
to the sum of the resolved per-seat quantities, and each entry's line total
(and quantity) equals the accumulated subtotal (and quantity) of that
category's seats. -/
theorem C2_seat_path (b : BookingRec) (oc : Option OccCat) (seats : List SeatRec)
    (qs : List ℚ) (p : BackendPricing)
    (hocc : (occBranch b oc).1 = [])
    (hs : b.seat_numbers = some seats)
    (hne : seats ≠ [])
    (hqs : resolveQtys seats = some qs)
    (h : fetchPricingData (some b) oc = some p) :
    ((p.categoryBreakdown.map (fun e => e.category)).Nodup ∧
      ∀ c, c ∈ p.categoryBreakdown.map (fun e => e.category) ↔
        c ∈ seats.map resolveSeatCategory) ∧
    bdQtySum p.categoryBreakdown = qs.sum ∧
    ∀ e ∈ p.categoryBreakdown,
      e.totalPrice = catTotSum (seats.zip qs) e.category ∧
      e.quantity = catQtySum (seats.zip qs) e.category := by
  have hlen := resolveQtys_length seats qs hqs
  set L := seats.zip qs with hL
  set st := L.foldl seatStep ⟨[], 0, 0⟩ with hst
  have hrun : runSeats seats = some st := by
    rw [runSeats, hqs, Option.map_some']
  have hpre : preFallback b oc =
      some (st.catMap.map toEntry, (occBranch b oc).2.1 + st.basePrice, st.totalQty) := by
    rw [preFallback_seats b oc seats hocc hs, hrun, Option.map_some']
  obtain ⟨hmts, hmqs, hnodup⟩ := runSeats_state seats st hrun
  have hmapne : st.catMap ≠ [] := by
    rcases seats with _ | ⟨s0, rest⟩
    · exact absurd rfl hne
    rcases qs with _ | ⟨q0, qrest⟩
    · simp at hlen
    have hmem : resolveSeatCategory s0 ∈ st.catMap.map Prod.fst := by
      rw [hst]
      refine (foldl_keys_mem _ _ _).mpr (Or.inr ?_)
      rw [hL]
      simp [List.zip_cons_cons]
    intro hnil
    rw [hnil] at hmem
    simp at hmem
  have hBne : st.catMap.map toEntry ≠ [] := by
    intro hmap
    exact hmapne (List.map_eq_nil_iff.mp hmap)
  rw [fetch_some_iff] at h
  obtain ⟨r3, hr3, rfl⟩ := h
  rw [hpre, Option.some_bind] at hr3
  have hbd : r3.1 = st.catMap.map toEntry := by
    by_cases hz : (occBranch b oc).2.1 + st.basePrice = 0
    · rw [flatFallback_zero_entries _ _ hz hBne] at hr3
      exact (congrArg Prod.fst (Option.some.inj hr3)).symm
    · rw [flatFallback_nonzero _ _ hz] at hr3
      exact (congrArg Prod.fst (Option.some.inj hr3)).symm
  have hcatmap : (st.catMap.map toEntry).map (fun e => e.category) =
      st.catMap.map Prod.fst := by
    rw [List.map_map]
    rfl
  have hLcat : L.map (fun sq => resolveSeatCategory sq.1) = seats.map resolveSeatCategory :=
    zip_map_fst_fn resolveSeatCategory seats qs hlen
  have hbdeq : (mkPricing b r3).categoryBreakdown = st.catMap.map toEntry := hbd
  rw [hbdeq]
  refine ⟨⟨?_, ?_⟩, ?_, ?_⟩
  · rw [hcatmap]
    exact hnodup
  · intro c
    rw [hcatmap, hst, foldl_keys_mem, hLcat]
    simp
  · rw [bdQtySum_toEntry, hmqs, hst, foldl_totalQty, hL,
      zip_map_snd seats qs hlen]
    simp [mapQtySum]
  · intro e he
    obtain ⟨pr, hpr, rfl⟩ := List.mem_map.mp he
    have hlook : st.catMap.lookup pr.1 = some pr.2 :=
      lookup_of_mem_nodup st.catMap pr.1 pr.2 hpr hnodup
    have htot : lkTot st.catMap pr.1 = catTotSum L pr.1 := by
      have hfold := foldl_lkTot L ⟨[], 0, 0⟩ pr.1
      rw [← hst] at hfold
      simpa [lkTot, List.lookup] using hfold
    have hqty : lkQty st.catMap pr.1 = catQtySum L pr.1 := by
      have hfold := foldl_lkQty L ⟨[], 0, 0⟩ pr.1
      rw [← hst] at hfold
      simpa [lkQty, List.lookup] using hfold
    constructor
    · rw [show (toEntry pr).totalPrice = pr.2.totalPrice from rfl,
        show (toEntry pr).category = pr.1 from rfl, ← htot]
      simp [lkTot, hlook]
    · rw [show (toEntry pr).quantity = pr.2.quantity from rfl,
        show (toEntry pr).category = pr.1 from rfl, ← hqty]
      simp [lkQty, hlook]

/-- Scenario A seat array: [{VIP, 500, 1}, {General, 200, 1}]. -/
def exSeatsA : List SeatRec :=
  [{ seat_category := some "VIP", price := some 500, quantity := some (QtyField.num 1) },
   { seat_category := some "General", price := some 200, quantity := some (QtyField.num 1) }]

/-- Scenario A booking: quantity 2, total 782.60, convenience fee 82.60. -/
def exBookingA : BookingRec :=
  { quantity := 2, total_price := some (3913 / 5), convenience_fee := some (413 / 5),
    seat_numbers := some exSeatsA }

/-- The reconciliation result for scenario A: breakdown
[{VIP, 1, 500, 500}, {General, 1, 200, 200}], basePrice 700, pre-tax fee
70, GST 12.60. -/
def exPricingA : BackendPricing :=
  { basePrice := 700, convenienceFee := 70, gstAmount := 63 / 5,
    totalPrice := 3913 / 5, actualTotalQuantity := 2,
    categoryBreakdown := [⟨"VIP", 1, 500, 500⟩, ⟨"General", 1, 200, 200⟩],
    customer_name := none, customer_email := none, customer_phone := none,
    occurrenceData := none, eventTime := none }

/-- C2 witness: the seat-path theorem at scenario A: two distinct
categories, quantities summing to 1 + 1, and line totals 500 and 200
matching the per-category subtotals. -/
theorem C2_witness :
    ((exPricingA.categoryBreakdown.map (fun e => e.category)).Nodup ∧
      ∀ c, c ∈ exPricingA.categoryBreakdown.map (fun e => e.category) ↔
        c ∈ exSeatsA.map resolveSeatCategory) ∧
    bdQtySum exPricingA.categoryBreakdown = [(1 : ℚ), 1].sum ∧
    ∀ e ∈ exPricingA.categoryBreakdown,
      e.totalPrice = catTotSum (exSeatsA.zip [(1 : ℚ), 1]) e.category ∧
      e.quantity = catQtySum (exSeatsA.zip [(1 : ℚ), 1]) e.category := by
  have hqs : resolveQtys exSeatsA = some [(1 : ℚ), 1] := by
    norm_num [exSeatsA, resolveQtys, resolveSeatQty, QtyField.truthy, QtyField.toNum]
  have hfetch : fetchPricingData (some exBookingA) none = some exPricingA := by
    have hvg : ("VIP" : String) ≠ "General" := by decide
    have hv : ("VIP" : String) ≠ "" := by decide
    have hg : ("General" : String) ≠ "" := by decide
    norm_num [hvg, hv, hg, fetchPricingData, preFallback, occBranch, flatFallback, runSeats,
      resolveQtys, resolveSeatQty, resolveSeatQtyBooked, QtyField.truthy, QtyField.toNum,
      seatStep, updateCat, resolveSeatCategory, resolveSeatPrice, strOr, numOr,
      strTruthy, toEntry, mkPricing, convFeeDecomp, exBookingA, exSeatsA, exPricingA,
      List.lookup]
  exact C2_seat_path exBookingA none exSeatsA [(1 : ℚ), 1] exPricingA rfl rfl
    (by simp [exSeatsA]) hqs hfetch

end Ticketooz
